import Mathlib

/-!
Verification of the client-side localization system of the NewLandingPage
repository (`localization/simple-toggle.js`, which bundles the
`SimpleLanguageToggle` widget, the `LocalizationEngine`, and the
supported-languages registry, together with `localization/config/settings.js`).

The JavaScript is shallowly embedded:
* JSON translation trees and the dynamic values the resolvers can produce are
  the inductive type `JSVal` (string leaves, numbers, and keyed objects).
  JavaScript functions (`String.prototype` methods, `Object.prototype`
  members reachable through the prototype chain) are outside this value
  domain; property access is modelled on own object fields plus the
  non-function own properties of strings (`length` and canonical character
  indices), which is what the code under verification can actually reach.
* DOM elements carrying translation markers are the structure `Element`;
  an element's rendered child tree is a single `ContentState` field, since
  `textContent` and `innerHTML` are two views of the same child list.
* Stateful methods become explicit state-passing functions; `fetch` becomes
  an oracle `String → Option JSVal` (`none` = network or parse failure), and
  every issued fetch is recorded in a `fetchLog`.
* A JavaScript exception is an `Option`/flag result; a `forEach` whose
  callback throws stops at the throwing element.
-/

namespace NewLanding

/-- JSON-like values of the translation domain: string leaves, numbers
(reachable via string `length`), and keyed objects. -/
inductive JSVal where
  | vStr : String → JSVal
  | vNum : Nat → JSVal
  | vObj : List (String × JSVal) → JSVal

/-- Association-list lookup, the model of reading an own property of a
JavaScript object (objects cannot have duplicate keys, so the first match is
the only match). -/
def assocLookup {α : Type} : List (String × α) → String → Option α
  | [], _ => none
  | (k', v) :: rest, k => if k' = k then some v else assocLookup rest k

/-- `Map.set` / property assignment on an association list: replace the
binding if present, append otherwise. -/
def setAssoc {α : Type} : List (String × α) → String → α → List (String × α)
  | [], k, v => [(k, v)]
  | (k', v') :: rest, k, v =>
    if k' = k then (k, v) :: rest else (k', v') :: setAssoc rest k v

/-- JavaScript truthiness on the modelled value domain: `""` and `0` are
falsy, every object is truthy. -/
def truthy : JSVal → Bool
  | .vStr s => decide (s ≠ "")
  | .vNum n => decide (n ≠ 0)
  | .vObj _ => true

/-- Truthiness of a possibly-`undefined`/`null` value (`none` is falsy). -/
def truthyO : Option JSVal → Bool
  | none => false
  | some v => truthy v

/-- String coercion applied when a value is assigned to a DOM string sink:
plain objects stringify as `[object Object]`. -/
def jsToString : JSVal → String
  | .vStr s => s
  | .vNum n => toString n
  | .vObj _ => "[object Object]"

/-- `key.split('.')`, character by character (structural recursion so that
concrete instances reduce definitionally). Like the JavaScript original it
keeps empty segments and maps `""` to `[""]`. -/
def splitDotAux : List Char → List Char → List String
  | [], acc => [String.mk acc.reverse]
  | c :: cs, acc =>
    if c = '.' then String.mk acc.reverse :: splitDotAux cs []
    else splitDotAux cs (c :: acc)

/-- `key.split('.')`. -/
def splitKey (key : String) : List String :=
  splitDotAux key.toList []

/-- A canonical numeric string (`"0"`, `"17"`, but not `"00"` or `"+1"`):
exactly the strings that act as character indices of a JavaScript string. -/
def parseCanonicalIndex (s : String) : Option Nat :=
  match s.toList with
  | [] => none
  | c :: cs =>
    if (c :: cs).all Char.isDigit then
      if c = '0' ∧ cs ≠ [] then none
      else some ((c :: cs).foldl (fun a d => a * 10 + (d.toNat - 48)) 0)
    else none

/-- JavaScript property read `v[k]` on the modelled value domain: own fields
of objects; on strings, the own non-function properties `length` and
canonical character indices. `String.prototype` / `Object.prototype` methods
are functions and lie outside the `JSVal` domain, so they are not modelled;
numbers have no own properties. -/
def getProp : JSVal → String → Option JSVal
  | .vObj fields, k => assocLookup fields k
  | .vStr s, k =>
    if k = "length" then some (.vNum s.length)
    else
      match parseCanonicalIndex k with
      | some i =>
        match s.toList.get? i with
        | some c => some (.vStr (String.mk [c]))
        | none => none
      | none => none
  | .vNum _, _ => none

/-! ### The two key resolvers

`SimpleLanguageToggle.getTranslation` (simple-toggle.js):

    const keys = key.split('.');
    let value = this.translations[language];
    for (const k of keys) {
      if (value && value[k] !== undefined) { value = value[k]; }
      else { return null; }
    }
    return value;

`LocalizationEngine.getTranslation` (same file, engine half):

    const trans = translations || this.translations.get(this.currentLanguage);
    if (!trans) return null;
    const keys = key.split('.');
    let result = trans;
    for (const k of keys) {
      if (result && typeof result === 'object' && k in result) { result = result[k]; }
      else { return null; }
    }
    return result;
-/

/-- The loop of `SimpleLanguageToggle.getTranslation`: `value` may start out
`undefined` (missing language), and each step requires `value` truthy with
`value[k]` defined. -/
def toggleWalk : Option JSVal → List String → Option JSVal
  | v, [] => v
  | v, k :: ks =>
    match v with
    | none => none
    | some jv =>
      if truthy jv then
        match getProp jv k with
        | some v' => toggleWalk (some v') ks
        | none => none
      else none

/-- `SimpleLanguageToggle.getTranslation(key, language)` over the widget's
`translations` record. -/
def SimpleToggle.getTranslation (translations : List (String × JSVal))
    (key language : String) : Option JSVal :=
  toggleWalk (assocLookup translations language) (splitKey key)

/-- The loop of `LocalizationEngine.getTranslation`: each step additionally
requires `typeof result === 'object'`, i.e. an object node. (`k in result`
also sees `Object.prototype` members, but their values are functions,
outside the modelled value domain; own fields are modelled.) -/
def engineWalk : JSVal → List String → Option JSVal
  | r, [] => some r
  | r, k :: ks =>
    match r with
    | .vObj fields =>
      match assocLookup fields k with
      | some v => engineWalk v ks
      | none => none
    | _ => none

/-- `LocalizationEngine.getTranslation(key, translations)` with the
translation tree passed explicitly (as every caller inside `updatePage`
does). The body is wrapped in `try`/`catch` returning `null`, so it never
raises; the model is total. -/
def LocalizationEngine.getTranslation (trans : JSVal) (key : String) :
    Option JSVal :=
  if truthy trans then engineWalk trans (splitKey key) else none

/-- Discriminator used to state that a resolver result is (not) a leaf
string. -/
def isLeafString : JSVal → Bool
  | .vStr _ => true
  | _ => false

/-! Concrete trees used by the resolver examples of the spec:
`{a: {b: {c: "X"}}}`, `{a: {b: {}}}`, `{a: "scalar"}`. -/

/-- `{a: {b: {c: "X"}}}` -/
def treeABC : JSVal := .vObj [("a", .vObj [("b", .vObj [("c", .vStr "X")])])]

/-- `{a: {b: {}}}` -/
def treeABempty : JSVal := .vObj [("a", .vObj [("b", .vObj [])])]

/-- `{a: "scalar"}` -/
def treeAScalar : JSVal := .vObj [("a", .vStr "scalar")]

/-- C1 counterexample: the claim says the resolver returns "either the leaf
string value or NOT_FOUND (null), never an internal subtree", but resolving
the dotted key `"a.b"` against `{a: {b: {c: "X"}}}` makes both
implementations return the internal subtree `{c: "X"}`: the result is
defined (`some`) and is not a leaf string. -/
theorem c1_resolver_returns_subtree_counterexample :
    (SimpleToggle.getTranslation [("en", treeABC)] "a.b" "en").map isLeafString
        = some false
    ∧ (LocalizationEngine.getTranslation treeABC "a.b").map isLeafString
        = some false :=
  ⟨rfl, rfl⟩

/-- C1 (amended): the resolver splits the key on `.`, walks the tree one
segment at a time, never raises (both model functions are total), and
returns whatever value the walk ends on — the leaf string when the key
addresses a leaf, `null` on a miss, but the subtree itself when the key
stops at an interior node (first conjunct, for both implementations). The
three concrete examples of the claim hold as stated, in both
implementations: `"a.b.c"` on `{a: {b: {c: "X"}}}` gives `"X"`, on
`{a: {b: {}}}` gives NOT_FOUND, and on `{a: "scalar"}` gives NOT_FOUND. -/
theorem c1_resolver_amended :
    (∀ t : JSVal,
      SimpleToggle.getTranslation [("en", JSVal.vObj [("a", t)])] "a" "en"
        = some t
      ∧ LocalizationEngine.getTranslation (JSVal.vObj [("a", t)]) "a" = some t)
    ∧ SimpleToggle.getTranslation [("en", treeABC)] "a.b.c" "en"
        = some (.vStr "X")
    ∧ SimpleToggle.getTranslation [("en", treeABempty)] "a.b.c" "en" = none
    ∧ SimpleToggle.getTranslation [("en", treeAScalar)] "a.b.c" "en" = none
    ∧ LocalizationEngine.getTranslation treeABC "a.b.c" = some (.vStr "X")
    ∧ LocalizationEngine.getTranslation treeABempty "a.b.c" = none
    ∧ LocalizationEngine.getTranslation treeAScalar "a.b.c" = none :=
  ⟨fun _ => ⟨rfl, rfl⟩, rfl, rfl, rfl, rfl, rfl, rfl⟩

/-- C9 counterexample: the two resolver implementations disagree. On the
tree `{a: "scalar"}` with key `"a.length"`, the widget resolver guards each
step only with truthiness (`value && value[k] !== undefined`), so it walks
into the string's own `length` property and returns the number `6`, while
the engine resolver additionally requires `typeof result === 'object'` and
returns `null`. -/
theorem c9_resolvers_disagree_counterexample :
    SimpleToggle.getTranslation [("en", treeAScalar)] "a.length" "en"
        = some (.vNum 6)
    ∧ LocalizationEngine.getTranslation treeAScalar "a.length" = none :=
  ⟨rfl, rfl⟩

/-- Each step the engine resolver takes (object node with the segment
present among its fields) is also taken, with the same result, by the
widget resolver's walk. -/
theorem engineWalk_toggleWalk (ks : List String) :
    ∀ r v, engineWalk r ks = some v → toggleWalk (some r) ks = some v := by
  induction ks with
  | nil =>
    intro r v h
    simpa [engineWalk, toggleWalk] using h
  | cons k ks ih =>
    intro r v h
    cases r with
    | vStr s => simp [engineWalk] at h
    | vNum n => simp [engineWalk] at h
    | vObj fields =>
      simp only [engineWalk] at h
      cases hl : assocLookup fields k with
      | none => rw [hl] at h; simp at h
      | some v' =>
        rw [hl] at h
        simp only [toggleWalk, truthy, getProp, hl, if_true]
        exact ih v' v h

/-- C9 (amended): the engine resolver refines the widget resolver — whenever
`LocalizationEngine.getTranslation` returns a value,
`SimpleLanguageToggle.getTranslation` returns the same value on the same
tree. (The two can differ only when the widget resolver reads a string
property — such as `length`, see the counterexample — of a string leaf,
where the engine returns `null`.) -/
theorem c9_engine_refines_toggle (translations : List (String × JSVal))
    (language key : String) (tree v : JSVal)
    (hTree : assocLookup translations language = some tree)
    (hEng : LocalizationEngine.getTranslation tree key = some v) :
    SimpleToggle.getTranslation translations key language = some v := by
  unfold LocalizationEngine.getTranslation at hEng
  by_cases ht : truthy tree = true
  · rw [if_pos ht] at hEng
    unfold SimpleToggle.getTranslation
    rw [hTree]
    exact engineWalk_toggleWalk (splitKey key) tree v hEng
  · rw [if_neg ht] at hEng
    exact absurd hEng (by simp)

/-- Witness for C9 (amended): at the concrete tree `{a: {b: {c: "X"}}}`
under language `"en"` with key `"a.b.c"`, both hypotheses hold and the
widget resolver returns the engine's value `"X"`. -/
theorem c9_engine_refines_toggle_witness :
    assocLookup [("en", treeABC)] "en" = some treeABC
    ∧ LocalizationEngine.getTranslation treeABC "a.b.c" = some (.vStr "X")
    ∧ SimpleToggle.getTranslation [("en", treeABC)] "a.b.c" "en"
        = some (.vStr "X") :=
  ⟨rfl, rfl, c9_engine_refines_toggle [("en", treeABC)] "en" "a.b.c" treeABC
    (.vStr "X") rfl rfl⟩

/-! ### The DOM model

An element's rendered child tree is one field: `textContent` and `innerHTML`
are two views of the same child list, so writing one overwrites the other.
Assignments parse/serialize deterministically, so `ContentState` keeps the
written string tagged with how it was written. -/

/-- The child tree of an element: last written as escaped text, or last
written as parsed markup. -/
inductive ContentState where
  | text : String → ContentState
  | markup : String → ContentState
deriving DecidableEq

/-- A DOM element as the synchronizer sees it: the immutable tag name, the
value of its `type` IDL property, its three translation-marker attributes,
whether it presently carries a `placeholder` content attribute, and its
mutable content, `placeholder` property and `value` property. -/
structure Element where
  tagName : String
  typeProp : String
  dataI18n : Option String
  dataI18nPlaceholder : Option String
  dataI18nValue : Option String
  hasPlaceholderAttr : Bool
  content : ContentState
  placeholder : String
  value : String
deriving DecidableEq

/-- The `placeholder` IDL property reflects the `placeholder` content
attribute exactly on `input` and `textarea` elements. -/
def reflectsPlaceholder (tag : String) : Bool :=
  decide (tag = "INPUT" ∨ tag = "TEXTAREA")

/-- `element.placeholder = s`: sets the property and, on a reflecting
element, (re)creates the content attribute. -/
def setPlaceholderProp (e : Element) (s : String) : Element :=
  { e with placeholder := s,
           hasPlaceholderAttr :=
             e.hasPlaceholderAttr || reflectsPlaceholder e.tagName }

/-- `element.value = s`: the `value` IDL property of an input is not
reflected back to the content attribute. -/
def setValueProp (e : Element) (s : String) : Element :=
  { e with value := s }

/-- `s.includes(c)` for a one-character needle. -/
def jsIncludes (s : String) (c : Char) : Bool :=
  s.toList.contains c

/-- The text-marker write of `SimpleLanguageToggle.applyTranslations`:
`innerHTML` when the translation contains both `<` and `>`, `textContent`
otherwise. -/
def writeText (e : Element) (s : String) : Element :=
  if jsIncludes s '<' && jsIncludes s '>' then { e with content := .markup s }
  else { e with content := .text s }

/-! ### `SimpleLanguageToggle.applyTranslations`

    const elements = document.querySelectorAll('[data-i18n]');
    elements.forEach(element => {
      const key = element.getAttribute('data-i18n');
      const translation = this.getTranslation(key, language);
      if (translation) {
        if (element.tagName === 'INPUT' && element.type === 'placeholder') {
          element.placeholder = translation;
        } else if (element.hasAttribute('placeholder')) {
          element.placeholder = translation;
        } else {
          if (translation.includes('<') && translation.includes('>')) {
            element.innerHTML = translation;
          } else {
            element.textContent = translation;
          }
        }
        updatedCount++;
      } else {
        this.findPartialTranslation(key, language);   // no DOM effect
      }
    });

followed by analogous loops over `[data-i18n-placeholder]` and
`[data-i18n-value]` (and a read-only debug loop over FAQ elements, omitted).
A non-string truthy `translation` (a subtree, or a number produced by a
string-property walk) reaches `translation.includes('<')` in the text
branch and raises a `TypeError` before any write to that element; the model
returns `none` there, and the pass functions below stop at a throwing
element, like a `forEach` whose callback throws. -/

/-- One `[data-i18n]` element of the first loop: `none` models the
`TypeError` raised by `translation.includes` on a non-string truthy
translation. -/
def textMarkerStep (translations : List (String × JSVal)) (language : String)
    (e : Element) : Option Element :=
  match e.dataI18n with
  | none => some e
  | some key =>
    match SimpleToggle.getTranslation translations key language with
    | none => some e
    | some v =>
      if truthy v = false then some e
      else if e.tagName = "INPUT" ∧ e.typeProp = "placeholder" then
        some (setPlaceholderProp e (jsToString v))
      else if e.hasPlaceholderAttr = true then
        some (setPlaceholderProp e (jsToString v))
      else
        match v with
        | .vStr s => some (writeText e s)
        | _ => none

/-- One `[data-i18n-placeholder]` element of the second loop
(`element.placeholder = translation` on a hit; assignment never throws). -/
def placeholderMarkerStep (translations : List (String × JSVal))
    (language : String) (e : Element) : Element :=
  match e.dataI18nPlaceholder with
  | none => e
  | some key =>
    match SimpleToggle.getTranslation translations key language with
    | none => e
    | some v => if truthy v then setPlaceholderProp e (jsToString v) else e

/-- One `[data-i18n-value]` element of the third loop
(`element.value = translation` on a hit). -/
def valueMarkerStep (translations : List (String × JSVal))
    (language : String) (e : Element) : Element :=
  match e.dataI18nValue with
  | none => e
  | some key =>
    match SimpleToggle.getTranslation translations key language with
    | none => e
    | some v => if truthy v then setValueProp e (jsToString v) else e

/-- The first (`[data-i18n]`) loop over the document's elements; the `Bool`
records whether the callback threw, in which case the remaining elements
are untouched and the exception propagates out of `applyTranslations`. -/
def textPass (translations : List (String × JSVal)) (language : String) :
    List Element → List Element × Bool
  | [] => ([], false)
  | e :: es =>
    match textMarkerStep translations language e with
    | some e' =>
      let r := textPass translations language es
      (e' :: r.1, r.2)
    | none => (e :: es, true)

/-- `Object.keys(x).length` on the modelled value domain (object keys are
unique; `Object.keys` of a string enumerates its character indices, of a
number nothing). -/
def jsKeysLength : JSVal → Nat
  | .vObj fields => fields.length
  | .vStr s => s.length
  | .vNum _ => 0

/-- `SimpleLanguageToggle.applyTranslations(language)` over the document's
marker-carrying elements. The two initial guards return untouched when the
language has no record entry, when the entry is falsy, or when it has no
keys; otherwise the three marker loops run in order, the last two only if
the first did not throw. -/
def SimpleToggle.applyTranslations (translations : List (String × JSVal))
    (language : String) (doc : List Element) : List Element :=
  match assocLookup translations language with
  | none => doc
  | some tv =>
    if truthy tv = false then doc
    else if jsKeysLength tv = 0 then doc
    else
      let r := textPass translations language doc
      if r.2 then r.1
      else
        (r.1.map (placeholderMarkerStep translations language)).map
          (valueMarkerStep translations language)

/-! ### Field-preservation lemmas for the DOM writes -/

@[simp] theorem setPlaceholderProp_tagName (e : Element) (s : String) :
    (setPlaceholderProp e s).tagName = e.tagName := rfl

@[simp] theorem setPlaceholderProp_typeProp (e : Element) (s : String) :
    (setPlaceholderProp e s).typeProp = e.typeProp := rfl

@[simp] theorem setPlaceholderProp_dataI18n (e : Element) (s : String) :
    (setPlaceholderProp e s).dataI18n = e.dataI18n := rfl

@[simp] theorem setPlaceholderProp_dataI18nPlaceholder (e : Element)
    (s : String) :
    (setPlaceholderProp e s).dataI18nPlaceholder = e.dataI18nPlaceholder := rfl

@[simp] theorem setPlaceholderProp_dataI18nValue (e : Element) (s : String) :
    (setPlaceholderProp e s).dataI18nValue = e.dataI18nValue := rfl

@[simp] theorem setPlaceholderProp_content (e : Element) (s : String) :
    (setPlaceholderProp e s).content = e.content := rfl

@[simp] theorem setPlaceholderProp_value (e : Element) (s : String) :
    (setPlaceholderProp e s).value = e.value := rfl

@[simp] theorem setPlaceholderProp_placeholder (e : Element) (s : String) :
    (setPlaceholderProp e s).placeholder = s := rfl

@[simp] theorem setPlaceholderProp_hasPlaceholderAttr (e : Element)
    (s : String) :
    (setPlaceholderProp e s).hasPlaceholderAttr
      = (e.hasPlaceholderAttr || reflectsPlaceholder e.tagName) := rfl

@[simp] theorem setValueProp_tagName (e : Element) (s : String) :
    (setValueProp e s).tagName = e.tagName := rfl

@[simp] theorem setValueProp_typeProp (e : Element) (s : String) :
    (setValueProp e s).typeProp = e.typeProp := rfl

@[simp] theorem setValueProp_dataI18n (e : Element) (s : String) :
    (setValueProp e s).dataI18n = e.dataI18n := rfl

@[simp] theorem setValueProp_dataI18nPlaceholder (e : Element) (s : String) :
    (setValueProp e s).dataI18nPlaceholder = e.dataI18nPlaceholder := rfl

@[simp] theorem setValueProp_dataI18nValue (e : Element) (s : String) :
    (setValueProp e s).dataI18nValue = e.dataI18nValue := rfl

@[simp] theorem setValueProp_content (e : Element) (s : String) :
    (setValueProp e s).content = e.content := rfl

@[simp] theorem setValueProp_placeholder (e : Element) (s : String) :
    (setValueProp e s).placeholder = e.placeholder := rfl

@[simp] theorem setValueProp_hasPlaceholderAttr (e : Element) (s : String) :
    (setValueProp e s).hasPlaceholderAttr = e.hasPlaceholderAttr := rfl

@[simp] theorem setValueProp_value (e : Element) (s : String) :
    (setValueProp e s).value = s := rfl

@[simp] theorem writeText_tagName (e : Element) (s : String) :
    (writeText e s).tagName = e.tagName := by
  unfold writeText; split <;> rfl

@[simp] theorem writeText_typeProp (e : Element) (s : String) :
    (writeText e s).typeProp = e.typeProp := by
  unfold writeText; split <;> rfl

@[simp] theorem writeText_dataI18n (e : Element) (s : String) :
    (writeText e s).dataI18n = e.dataI18n := by
  unfold writeText; split <;> rfl

@[simp] theorem writeText_dataI18nPlaceholder (e : Element) (s : String) :
    (writeText e s).dataI18nPlaceholder = e.dataI18nPlaceholder := by
  unfold writeText; split <;> rfl

@[simp] theorem writeText_dataI18nValue (e : Element) (s : String) :
    (writeText e s).dataI18nValue = e.dataI18nValue := by
  unfold writeText; split <;> rfl

@[simp] theorem writeText_hasPlaceholderAttr (e : Element) (s : String) :
    (writeText e s).hasPlaceholderAttr = e.hasPlaceholderAttr := by
  unfold writeText; split <;> rfl

@[simp] theorem writeText_placeholder (e : Element) (s : String) :
    (writeText e s).placeholder = e.placeholder := by
  unfold writeText; split <;> rfl

@[simp] theorem writeText_value (e : Element) (s : String) :
    (writeText e s).value = e.value := by
  unfold writeText; split <;> rfl

/-- Re-assigning the `placeholder` property overwrites the previous
assignment and leaves the attribute presence where it already was. -/
theorem setPlaceholderProp_setPlaceholderProp (e : Element) (s s' : String) :
    setPlaceholderProp (setPlaceholderProp e s) s' = setPlaceholderProp e s' := by
  simp [setPlaceholderProp, Bool.or_assoc]

/-- Writing the content of an element whose `placeholder` property was just
set commutes with that property write. -/
theorem writeText_setPlaceholderProp (e : Element) (s t : String) :
    writeText (setPlaceholderProp e s) t = setPlaceholderProp (writeText e t) s := by
  by_cases h : jsIncludes t '<' = true ∧ jsIncludes t '>' = true
  · simp [writeText, setPlaceholderProp, h]
  · simp [writeText, setPlaceholderProp, h]

/-- `writeText` ignores the previous content. -/
theorem writeText_content_irrel (e : Element) (c : ContentState) (t : String) :
    writeText { e with content := c } t = writeText e t := by
  unfold writeText
  split <;> rfl

theorem writeText_writeText (e : Element) (s t : String) :
    writeText (writeText e s) t = writeText e t := by
  by_cases hs : (jsIncludes s '<' && jsIncludes s '>') = true
  · have h1 : writeText e s = { e with content := .markup s } := by
      unfold writeText
      rw [if_pos hs]
    rw [h1, writeText_content_irrel]
  · have h1 : writeText e s = { e with content := .text s } := by
      unfold writeText
      rw [if_neg hs]
    rw [h1, writeText_content_irrel]

/-! ### Decision outcomes of the three marker loops

Each loop's decision depends only on the element's (immutable) marker
attributes and the translation record, never on its mutable text and
property fields; the outcome functions make this explicit. -/

/-- The truthy translation a `[data-i18n]` element resolves to, if any. -/
def txtResolve (translations : List (String × JSVal)) (language : String)
    (e : Element) : Option JSVal :=
  match e.dataI18n with
  | none => none
  | some key =>
    match SimpleToggle.getTranslation translations key language with
    | none => none
    | some v => if truthy v then some v else none

/-- The string a `[data-i18n-placeholder]` element's loop would assign. -/
def plcOutcome (translations : List (String × JSVal)) (language : String)
    (e : Element) : Option String :=
  match e.dataI18nPlaceholder with
  | none => none
  | some key =>
    match SimpleToggle.getTranslation translations key language with
    | none => none
    | some v => if truthy v then some (jsToString v) else none

/-- The string a `[data-i18n-value]` element's loop would assign. -/
def valOutcome (translations : List (String × JSVal)) (language : String)
    (e : Element) : Option String :=
  match e.dataI18nValue with
  | none => none
  | some key =>
    match SimpleToggle.getTranslation translations key language with
    | none => none
    | some v => if truthy v then some (jsToString v) else none

theorem txtResolve_congr (tr : List (String × JSVal)) (lang : String)
    {x y : Element} (h : x.dataI18n = y.dataI18n) :
    txtResolve tr lang x = txtResolve tr lang y := by
  unfold txtResolve
  rw [h]

theorem plcOutcome_congr (tr : List (String × JSVal)) (lang : String)
    {x y : Element} (h : x.dataI18nPlaceholder = y.dataI18nPlaceholder) :
    plcOutcome tr lang x = plcOutcome tr lang y := by
  unfold plcOutcome
  rw [h]

theorem valOutcome_congr (tr : List (String × JSVal)) (lang : String)
    {x y : Element} (h : x.dataI18nValue = y.dataI18nValue) :
    valOutcome tr lang x = valOutcome tr lang y := by
  unfold valOutcome
  rw [h]

@[simp] theorem txtResolve_setPlaceholderProp (tr : List (String × JSVal))
    (lang : String) (x : Element) (s : String) :
    txtResolve tr lang (setPlaceholderProp x s) = txtResolve tr lang x :=
  txtResolve_congr tr lang (setPlaceholderProp_dataI18n x s)

@[simp] theorem txtResolve_setValueProp (tr : List (String × JSVal))
    (lang : String) (x : Element) (s : String) :
    txtResolve tr lang (setValueProp x s) = txtResolve tr lang x :=
  txtResolve_congr tr lang (setValueProp_dataI18n x s)

@[simp] theorem txtResolve_writeText (tr : List (String × JSVal))
    (lang : String) (x : Element) (s : String) :
    txtResolve tr lang (writeText x s) = txtResolve tr lang x :=
  txtResolve_congr tr lang (writeText_dataI18n x s)

@[simp] theorem plcOutcome_setPlaceholderProp (tr : List (String × JSVal))
    (lang : String) (x : Element) (s : String) :
    plcOutcome tr lang (setPlaceholderProp x s) = plcOutcome tr lang x :=
  plcOutcome_congr tr lang (setPlaceholderProp_dataI18nPlaceholder x s)

@[simp] theorem plcOutcome_setValueProp (tr : List (String × JSVal))
    (lang : String) (x : Element) (s : String) :
    plcOutcome tr lang (setValueProp x s) = plcOutcome tr lang x :=
  plcOutcome_congr tr lang (setValueProp_dataI18nPlaceholder x s)

@[simp] theorem plcOutcome_writeText (tr : List (String × JSVal))
    (lang : String) (x : Element) (s : String) :
    plcOutcome tr lang (writeText x s) = plcOutcome tr lang x :=
  plcOutcome_congr tr lang (writeText_dataI18nPlaceholder x s)

@[simp] theorem valOutcome_setPlaceholderProp (tr : List (String × JSVal))
    (lang : String) (x : Element) (s : String) :
    valOutcome tr lang (setPlaceholderProp x s) = valOutcome tr lang x :=
  valOutcome_congr tr lang (setPlaceholderProp_dataI18nValue x s)

@[simp] theorem valOutcome_setValueProp (tr : List (String × JSVal))
    (lang : String) (x : Element) (s : String) :
    valOutcome tr lang (setValueProp x s) = valOutcome tr lang x :=
  valOutcome_congr tr lang (setValueProp_dataI18nValue x s)

@[simp] theorem valOutcome_writeText (tr : List (String × JSVal))
    (lang : String) (x : Element) (s : String) :
    valOutcome tr lang (writeText x s) = valOutcome tr lang x :=
  valOutcome_congr tr lang (writeText_dataI18nValue x s)

/-- `textMarkerStep` in terms of its decision outcome. -/
theorem textMarkerStep_spec (tr : List (String × JSVal)) (lang : String)
    (e : Element) :
    textMarkerStep tr lang e =
      match txtResolve tr lang e with
      | none => some e
      | some v =>
        if e.tagName = "INPUT" ∧ e.typeProp = "placeholder" then
          some (setPlaceholderProp e (jsToString v))
        else if e.hasPlaceholderAttr = true then
          some (setPlaceholderProp e (jsToString v))
        else
          match v with
          | .vStr s => some (writeText e s)
          | _ => none := by
  unfold textMarkerStep txtResolve
  cases hd : e.dataI18n with
  | none => rfl
  | some key =>
    dsimp only
    cases hv : SimpleToggle.getTranslation tr key lang with
    | none => rfl
    | some v =>
      dsimp only
      by_cases ht : truthy v = true <;> simp [ht]

/-- `placeholderMarkerStep` in terms of its decision outcome. -/
theorem placeholderMarkerStep_spec (tr : List (String × JSVal)) (lang : String)
    (e : Element) :
    placeholderMarkerStep tr lang e =
      match plcOutcome tr lang e with
      | none => e
      | some s => setPlaceholderProp e s := by
  unfold placeholderMarkerStep plcOutcome
  cases hd : e.dataI18nPlaceholder with
  | none => rfl
  | some key =>
    dsimp only
    cases hv : SimpleToggle.getTranslation tr key lang with
    | none => rfl
    | some v =>
      dsimp only
      by_cases ht : truthy v = true <;> simp [ht]

/-- `valueMarkerStep` in terms of its decision outcome. -/
theorem valueMarkerStep_spec (tr : List (String × JSVal)) (lang : String)
    (e : Element) :
    valueMarkerStep tr lang e =
      match valOutcome tr lang e with
      | none => e
      | some s => setValueProp e s := by
  unfold valueMarkerStep valOutcome
  cases hd : e.dataI18nValue with
  | none => rfl
  | some key =>
    dsimp only
    cases hv : SimpleToggle.getTranslation tr key lang with
    | none => rfl
    | some v =>
      dsimp only
      by_cases ht : truthy v = true <;> simp [ht]

/-! ### Write-composition algebra -/

theorem setValueProp_setValueProp (e : Element) (a b : String) :
    setValueProp (setValueProp e a) b = setValueProp e b := rfl

theorem setPlaceholderProp_setValueProp (e : Element) (a s : String) :
    setPlaceholderProp (setValueProp e a) s
      = setValueProp (setPlaceholderProp e s) a := rfl

theorem writeText_setValueProp (e : Element) (a t : String) :
    writeText (setValueProp e a) t = setValueProp (writeText e t) a := by
  by_cases h : (jsIncludes t '<' && jsIncludes t '>') = true
  · simp [writeText, setValueProp, h]
  · simp [writeText, setValueProp, h]

/-- The placeholder and value loops composed, as applied after the text
loop; `valueMarkerStep` sees the same value outcome through the placeholder
write, so the composite has this four-way normal form. -/
def syncTail (translations : List (String × JSVal)) (language : String)
    (x : Element) : Element :=
  valueMarkerStep translations language
    (placeholderMarkerStep translations language x)

theorem syncTail_eq (tr : List (String × JSVal)) (lang : String)
    (x : Element) :
    syncTail tr lang x =
      match valOutcome tr lang x, plcOutcome tr lang x with
      | none, none => x
      | none, some s2 => setPlaceholderProp x s2
      | some s3, none => setValueProp x s3
      | some s3, some s2 => setValueProp (setPlaceholderProp x s2) s3 := by
  unfold syncTail
  rw [placeholderMarkerStep_spec]
  cases hpo : plcOutcome tr lang x with
  | none =>
    dsimp only
    rw [valueMarkerStep_spec]
    cases hvo : valOutcome tr lang x with
    | none => rfl
    | some s3 => rfl
  | some s2 =>
    dsimp only
    rw [valueMarkerStep_spec]
    rw [valOutcome_setPlaceholderProp]
    cases hvo : valOutcome tr lang x with
    | none => rfl
    | some s3 => rfl

/-- The text loop is a per-element fixed point: re-running it on its own
output writes the same thing again. -/
theorem textMarkerStep_fixed (tr : List (String × JSVal)) (lang : String)
    {e e' : Element} (h : textMarkerStep tr lang e = some e') :
    textMarkerStep tr lang e' = some e' := by
  rw [textMarkerStep_spec] at h
  rw [textMarkerStep_spec]
  cases hr : txtResolve tr lang e with
  | none =>
    rw [hr] at h
    have he : e = e' := by injection h
    subst he
    rw [hr]
  | some v =>
    rw [hr] at h
    dsimp only at h
    by_cases hb1 : e.tagName = "INPUT" ∧ e.typeProp = "placeholder"
    · rw [if_pos hb1] at h
      have he : setPlaceholderProp e (jsToString v) = e' := by injection h
      subst he
      simp [hr, hb1, setPlaceholderProp_setPlaceholderProp]
    · rw [if_neg hb1] at h
      by_cases ha : e.hasPlaceholderAttr = true
      · rw [if_pos ha] at h
        have he : setPlaceholderProp e (jsToString v) = e' := by injection h
        subst he
        simp [hr, hb1, ha, setPlaceholderProp_setPlaceholderProp]
      · rw [if_neg ha] at h
        cases v with
        | vStr s =>
          have he' : writeText e s = e' := by injection h
          subst he'
          simp [hr, hb1, ha, writeText_writeText, jsToString]
        | vNum n => exact absurd h (by simp)
        | vObj fields => exact absurd h (by simp)

/-! ### Projections through the placeholder/value loops -/

@[simp] theorem placeholderMarkerStep_tagName (tr : List (String × JSVal))
    (lang : String) (x : Element) :
    (placeholderMarkerStep tr lang x).tagName = x.tagName := by
  rw [placeholderMarkerStep_spec]
  cases hpo : plcOutcome tr lang x <;> simp

@[simp] theorem placeholderMarkerStep_typeProp (tr : List (String × JSVal))
    (lang : String) (x : Element) :
    (placeholderMarkerStep tr lang x).typeProp = x.typeProp := by
  rw [placeholderMarkerStep_spec]
  cases hpo : plcOutcome tr lang x <;> simp

@[simp] theorem placeholderMarkerStep_dataI18n (tr : List (String × JSVal))
    (lang : String) (x : Element) :
    (placeholderMarkerStep tr lang x).dataI18n = x.dataI18n := by
  rw [placeholderMarkerStep_spec]
  cases hpo : plcOutcome tr lang x <;> simp

@[simp] theorem placeholderMarkerStep_dataI18nPlaceholder
    (tr : List (String × JSVal)) (lang : String) (x : Element) :
    (placeholderMarkerStep tr lang x).dataI18nPlaceholder
      = x.dataI18nPlaceholder := by
  rw [placeholderMarkerStep_spec]
  cases hpo : plcOutcome tr lang x <;> simp

@[simp] theorem placeholderMarkerStep_dataI18nValue (tr : List (String × JSVal))
    (lang : String) (x : Element) :
    (placeholderMarkerStep tr lang x).dataI18nValue = x.dataI18nValue := by
  rw [placeholderMarkerStep_spec]
  cases hpo : plcOutcome tr lang x <;> simp

@[simp] theorem placeholderMarkerStep_content (tr : List (String × JSVal))
    (lang : String) (x : Element) :
    (placeholderMarkerStep tr lang x).content = x.content := by
  rw [placeholderMarkerStep_spec]
  cases hpo : plcOutcome tr lang x <;> simp

@[simp] theorem placeholderMarkerStep_value (tr : List (String × JSVal))
    (lang : String) (x : Element) :
    (placeholderMarkerStep tr lang x).value = x.value := by
  rw [placeholderMarkerStep_spec]
  cases hpo : plcOutcome tr lang x <;> simp

@[simp] theorem valueMarkerStep_tagName (tr : List (String × JSVal))
    (lang : String) (x : Element) :
    (valueMarkerStep tr lang x).tagName = x.tagName := by
  rw [valueMarkerStep_spec]
  cases hvo : valOutcome tr lang x <;> simp

@[simp] theorem valueMarkerStep_typeProp (tr : List (String × JSVal))
    (lang : String) (x : Element) :
    (valueMarkerStep tr lang x).typeProp = x.typeProp := by
  rw [valueMarkerStep_spec]
  cases hvo : valOutcome tr lang x <;> simp

@[simp] theorem valueMarkerStep_dataI18n (tr : List (String × JSVal))
    (lang : String) (x : Element) :
    (valueMarkerStep tr lang x).dataI18n = x.dataI18n := by
  rw [valueMarkerStep_spec]
  cases hvo : valOutcome tr lang x <;> simp

@[simp] theorem valueMarkerStep_dataI18nPlaceholder (tr : List (String × JSVal))
    (lang : String) (x : Element) :
    (valueMarkerStep tr lang x).dataI18nPlaceholder = x.dataI18nPlaceholder := by
  rw [valueMarkerStep_spec]
  cases hvo : valOutcome tr lang x <;> simp

@[simp] theorem valueMarkerStep_dataI18nValue (tr : List (String × JSVal))
    (lang : String) (x : Element) :
    (valueMarkerStep tr lang x).dataI18nValue = x.dataI18nValue := by
  rw [valueMarkerStep_spec]
  cases hvo : valOutcome tr lang x <;> simp

@[simp] theorem valueMarkerStep_content (tr : List (String × JSVal))
    (lang : String) (x : Element) :
    (valueMarkerStep tr lang x).content = x.content := by
  rw [valueMarkerStep_spec]
  cases hvo : valOutcome tr lang x <;> simp

@[simp] theorem valueMarkerStep_placeholder (tr : List (String × JSVal))
    (lang : String) (x : Element) :
    (valueMarkerStep tr lang x).placeholder = x.placeholder := by
  rw [valueMarkerStep_spec]
  cases hvo : valOutcome tr lang x <;> simp

@[simp] theorem valueMarkerStep_hasPlaceholderAttr (tr : List (String × JSVal))
    (lang : String) (x : Element) :
    (valueMarkerStep tr lang x).hasPlaceholderAttr = x.hasPlaceholderAttr := by
  rw [valueMarkerStep_spec]
  cases hvo : valOutcome tr lang x <;> simp

@[simp] theorem syncTail_tagName (tr : List (String × JSVal)) (lang : String)
    (x : Element) : (syncTail tr lang x).tagName = x.tagName := by
  unfold syncTail
  simp

@[simp] theorem syncTail_typeProp (tr : List (String × JSVal)) (lang : String)
    (x : Element) : (syncTail tr lang x).typeProp = x.typeProp := by
  unfold syncTail
  simp

@[simp] theorem syncTail_dataI18n (tr : List (String × JSVal)) (lang : String)
    (x : Element) : (syncTail tr lang x).dataI18n = x.dataI18n := by
  unfold syncTail
  simp

@[simp] theorem syncTail_dataI18nPlaceholder (tr : List (String × JSVal))
    (lang : String) (x : Element) :
    (syncTail tr lang x).dataI18nPlaceholder = x.dataI18nPlaceholder := by
  unfold syncTail
  simp

@[simp] theorem syncTail_dataI18nValue (tr : List (String × JSVal))
    (lang : String) (x : Element) :
    (syncTail tr lang x).dataI18nValue = x.dataI18nValue := by
  unfold syncTail
  simp

@[simp] theorem txtResolve_placeholderMarkerStep (tr : List (String × JSVal))
    (lang : String) (x : Element) :
    txtResolve tr lang (placeholderMarkerStep tr lang x)
      = txtResolve tr lang x :=
  txtResolve_congr tr lang (placeholderMarkerStep_dataI18n tr lang x)

@[simp] theorem txtResolve_valueMarkerStep (tr : List (String × JSVal))
    (lang : String) (x : Element) :
    txtResolve tr lang (valueMarkerStep tr lang x) = txtResolve tr lang x :=
  txtResolve_congr tr lang (valueMarkerStep_dataI18n tr lang x)

@[simp] theorem txtResolve_syncTail (tr : List (String × JSVal))
    (lang : String) (x : Element) :
    txtResolve tr lang (syncTail tr lang x) = txtResolve tr lang x :=
  txtResolve_congr tr lang (syncTail_dataI18n tr lang x)

@[simp] theorem plcOutcome_syncTail (tr : List (String × JSVal))
    (lang : String) (x : Element) :
    plcOutcome tr lang (syncTail tr lang x) = plcOutcome tr lang x :=
  plcOutcome_congr tr lang (syncTail_dataI18nPlaceholder tr lang x)

@[simp] theorem valOutcome_syncTail (tr : List (String × JSVal))
    (lang : String) (x : Element) :
    valOutcome tr lang (syncTail tr lang x) = valOutcome tr lang x :=
  valOutcome_congr tr lang (syncTail_dataI18nValue tr lang x)

/-- A present `placeholder` attribute survives the placeholder and value
loops (property writes only ever create the attribute, never remove it). -/
theorem syncTail_hasPlaceholderAttr_mono (tr : List (String × JSVal))
    (lang : String) (x : Element) (h : x.hasPlaceholderAttr = true) :
    (syncTail tr lang x).hasPlaceholderAttr = true := by
  rw [syncTail_eq]
  cases hvo : valOutcome tr lang x <;> cases hpo : plcOutcome tr lang x <;>
    simp [h]

/-! ### Branch lemmas for the text loop and the absorb algebra -/

/-- Text loop, no truthy translation: the element is left alone. -/
theorem textMarkerStep_miss (tr : List (String × JSVal)) (lang : String)
    {x : Element} (h : txtResolve tr lang x = none) :
    textMarkerStep tr lang x = some x := by
  rw [textMarkerStep_spec, h]

/-- Text loop on an `INPUT` with `type === 'placeholder'`: the translation
goes to the `placeholder` property. -/
theorem textMarkerStep_b1 (tr : List (String × JSVal)) (lang : String)
    {x : Element} {v : JSVal} (h : txtResolve tr lang x = some v)
    (hb : x.tagName = "INPUT" ∧ x.typeProp = "placeholder") :
    textMarkerStep tr lang x = some (setPlaceholderProp x (jsToString v)) := by
  rw [textMarkerStep_spec, h]
  dsimp only
  rw [if_pos hb]

/-- Text loop on an element with the `placeholder` attribute: the
translation goes to the `placeholder` property (this also covers the
`INPUT`/`type` branch, which writes the same thing). -/
theorem textMarkerStep_attr (tr : List (String × JSVal)) (lang : String)
    {x : Element} {v : JSVal} (h : txtResolve tr lang x = some v)
    (ha : x.hasPlaceholderAttr = true) :
    textMarkerStep tr lang x = some (setPlaceholderProp x (jsToString v)) := by
  rw [textMarkerStep_spec, h]
  dsimp only
  by_cases hb : x.tagName = "INPUT" ∧ x.typeProp = "placeholder"
  · rw [if_pos hb]
  · rw [if_neg hb, if_pos ha]

/-- Text loop, plain text branch: a string translation is written through
`writeText`. -/
theorem textMarkerStep_text (tr : List (String × JSVal)) (lang : String)
    {x : Element} {s : String} (h : txtResolve tr lang x = some (.vStr s))
    (hb : ¬(x.tagName = "INPUT" ∧ x.typeProp = "placeholder"))
    (ha : x.hasPlaceholderAttr = false) :
    textMarkerStep tr lang x = some (writeText x s) := by
  rw [textMarkerStep_spec, h]
  dsimp only
  rw [if_neg hb, if_neg (by simp [ha])]

/-- Running the placeholder and value loops twice is the same as running
them once. -/
theorem syncTail_idem (tr : List (String × JSVal)) (lang : String)
    (x : Element) :
    syncTail tr lang (syncTail tr lang x) = syncTail tr lang x := by
  rw [syncTail_eq tr lang x]
  cases hvo : valOutcome tr lang x with
  | none =>
    cases hpo : plcOutcome tr lang x with
    | none =>
      dsimp only
      rw [syncTail_eq]
      simp [hvo, hpo]
    | some s2 =>
      dsimp only
      rw [syncTail_eq]
      simp [hvo, hpo, setPlaceholderProp_setPlaceholderProp]
  | some s3 =>
    cases hpo : plcOutcome tr lang x with
    | none =>
      dsimp only
      rw [syncTail_eq]
      simp [hvo, hpo, setValueProp_setValueProp]
    | some s2 =>
      dsimp only
      rw [syncTail_eq]
      simp [hvo, hpo, setPlaceholderProp_setValueProp,
        setPlaceholderProp_setPlaceholderProp, setValueProp_setValueProp]

/-- Re-writing the same placeholder string after the tail loops, then
running the tail loops again, changes nothing (the placeholder loop, if it
fires, restores its own value; otherwise the re-write repeats the original
one). -/
theorem syncTail_SP_absorb (tr : List (String × JSVal)) (lang : String)
    (x : Element) (s : String) :
    syncTail tr lang
        (setPlaceholderProp (syncTail tr lang (setPlaceholderProp x s)) s)
      = syncTail tr lang (setPlaceholderProp x s) := by
  rw [syncTail_eq tr lang (setPlaceholderProp x s)]
  cases hvo : valOutcome tr lang x with
  | none =>
    cases hpo : plcOutcome tr lang x with
    | none =>
      simp only [valOutcome_setPlaceholderProp, plcOutcome_setPlaceholderProp,
        hvo, hpo]
      rw [syncTail_eq]
      simp [hvo, hpo, setPlaceholderProp_setPlaceholderProp]
    | some s2 =>
      simp only [valOutcome_setPlaceholderProp, plcOutcome_setPlaceholderProp,
        hvo, hpo]
      rw [syncTail_eq]
      simp [hvo, hpo, setPlaceholderProp_setPlaceholderProp]
  | some s3 =>
    cases hpo : plcOutcome tr lang x with
    | none =>
      simp only [valOutcome_setPlaceholderProp, plcOutcome_setPlaceholderProp,
        hvo, hpo]
      rw [syncTail_eq]
      simp [hvo, hpo, setPlaceholderProp_setValueProp,
        setPlaceholderProp_setPlaceholderProp, setValueProp_setValueProp]
    | some s2 =>
      simp only [valOutcome_setPlaceholderProp, plcOutcome_setPlaceholderProp,
        hvo, hpo]
      rw [syncTail_eq]
      simp [hvo, hpo, setPlaceholderProp_setValueProp,
        setPlaceholderProp_setPlaceholderProp, setValueProp_setValueProp]

/-- When the placeholder loop writes, re-writing the placeholder property
with anything and running the tail loops again restores the tail-loop
output. -/
theorem syncTail_SP_absorb_of_write (tr : List (String × JSVal))
    (lang : String) (z : Element) (s s2 : String)
    (hpo : plcOutcome tr lang z = some s2) :
    syncTail tr lang (setPlaceholderProp (syncTail tr lang z) s)
      = syncTail tr lang z := by
  rw [syncTail_eq tr lang z]
  cases hvo : valOutcome tr lang z with
  | none =>
    simp only [hvo, hpo]
    rw [syncTail_eq]
    simp [hvo, hpo, setPlaceholderProp_setPlaceholderProp]
  | some s3 =>
    simp only [hvo, hpo]
    rw [syncTail_eq]
    simp [hvo, hpo, setPlaceholderProp_setValueProp,
      setPlaceholderProp_setPlaceholderProp, setValueProp_setValueProp]

/-- Re-writing the same text through `writeText` after the tail loops is a
no-op: the tail loops do not touch the content, so the same content write
repeats. -/
theorem writeText_syncTail_writeText (tr : List (String × JSVal))
    (lang : String) (x : Element) (s : String) :
    writeText (syncTail tr lang (writeText x s)) s
      = syncTail tr lang (writeText x s) := by
  rw [syncTail_eq tr lang (writeText x s)]
  cases hvo : valOutcome tr lang x with
  | none =>
    cases hpo : plcOutcome tr lang x with
    | none =>
      simp [hvo, hpo, writeText_writeText]
    | some s2 =>
      simp [hvo, hpo, writeText_setPlaceholderProp, writeText_writeText]
  | some s3 =>
    cases hpo : plcOutcome tr lang x with
    | none =>
      simp [hvo, hpo, writeText_setValueProp, writeText_writeText]
    | some s2 =>
      simp [hvo, hpo, writeText_setValueProp, writeText_setPlaceholderProp,
        writeText_writeText]

/-- Per-element kernel of the idempotence proof: if the text loop processed
`e` into `e1` without throwing, then after the placeholder and value loops
run on `e1`, a second full round (text loop, then tail loops) reproduces the
same element. The `placeholder`-attribute creation by a property write can
re-route the second text write into the `placeholder` property, but the
tail loops then restore it, so the final state is unchanged. -/
theorem textMarkerStep_roundtrip (tr : List (String × JSVal)) (lang : String)
    {e e1 : Element} (h : textMarkerStep tr lang e = some e1) :
    ∃ y, textMarkerStep tr lang (syncTail tr lang e1) = some y
      ∧ syncTail tr lang y = syncTail tr lang e1 := by
  rw [textMarkerStep_spec] at h
  cases hr : txtResolve tr lang e with
  | none =>
    rw [hr] at h
    have he : e = e1 := by injection h
    subst he
    refine ⟨syncTail tr lang e, ?_, syncTail_idem tr lang e⟩
    exact textMarkerStep_miss tr lang (by simp [hr])
  | some v =>
    rw [hr] at h
    dsimp only at h
    by_cases hb1 : e.tagName = "INPUT" ∧ e.typeProp = "placeholder"
    · rw [if_pos hb1] at h
      have he : setPlaceholderProp e (jsToString v) = e1 := by injection h
      subst he
      have hres : txtResolve tr lang
          (syncTail tr lang (setPlaceholderProp e (jsToString v))) = some v := by
        simp [hr]
      have hb1' : (syncTail tr lang
            (setPlaceholderProp e (jsToString v))).tagName = "INPUT"
          ∧ (syncTail tr lang
            (setPlaceholderProp e (jsToString v))).typeProp = "placeholder" := by
        simpa using hb1
      exact ⟨_, textMarkerStep_b1 tr lang hres hb1',
        syncTail_SP_absorb tr lang e (jsToString v)⟩
    · rw [if_neg hb1] at h
      by_cases ha : e.hasPlaceholderAttr = true
      · rw [if_pos ha] at h
        have he : setPlaceholderProp e (jsToString v) = e1 := by injection h
        subst he
        have hres : txtResolve tr lang
            (syncTail tr lang (setPlaceholderProp e (jsToString v))) = some v := by
          simp [hr]
        have hattr : (syncTail tr lang
            (setPlaceholderProp e (jsToString v))).hasPlaceholderAttr = true :=
          syncTail_hasPlaceholderAttr_mono tr lang _ (by simp [ha])
        exact ⟨_, textMarkerStep_attr tr lang hres hattr,
          syncTail_SP_absorb tr lang e (jsToString v)⟩
      · rw [if_neg ha] at h
        have ha' : e.hasPlaceholderAttr = false := by
          cases hx : e.hasPlaceholderAttr
          · rfl
          · exact absurd hx ha
        cases v with
        | vNum n => exact absurd h (by simp)
        | vObj fields => exact absurd h (by simp)
        | vStr s =>
          have he : writeText e s = e1 := by injection h
          subst he
          have hres : txtResolve tr lang
              (syncTail tr lang (writeText e s)) = some (JSVal.vStr s) := by
            simp [hr]
          have hb1' : ¬((syncTail tr lang (writeText e s)).tagName = "INPUT"
              ∧ (syncTail tr lang (writeText e s)).typeProp = "placeholder") := by
            simpa using hb1
          cases hpo : plcOutcome tr lang e with
          | none =>
            have hattr : (syncTail tr lang
                (writeText e s)).hasPlaceholderAttr = false := by
              rw [syncTail_eq]
              simp only [valOutcome_writeText, plcOutcome_writeText, hpo]
              cases hvo : valOutcome tr lang e <;> simp [ha']
            refine ⟨_, textMarkerStep_text tr lang hres hb1' hattr, ?_⟩
            rw [writeText_syncTail_writeText]
            exact syncTail_idem tr lang (writeText e s)
          | some s2 =>
            by_cases hrefl : reflectsPlaceholder e.tagName = true
            · have hattr : (syncTail tr lang
                  (writeText e s)).hasPlaceholderAttr = true := by
                rw [syncTail_eq]
                simp only [valOutcome_writeText, plcOutcome_writeText, hpo]
                cases hvo : valOutcome tr lang e <;> simp [hrefl]
              refine ⟨_, textMarkerStep_attr tr lang hres hattr, ?_⟩
              exact syncTail_SP_absorb_of_write tr lang (writeText e s)
                (jsToString (JSVal.vStr s)) s2 (by simp [hpo])
            · have hrefl' : reflectsPlaceholder e.tagName = false := by
                cases hx : reflectsPlaceholder e.tagName
                · rfl
                · exact absurd hx hrefl
              have hattr : (syncTail tr lang
                  (writeText e s)).hasPlaceholderAttr = false := by
                rw [syncTail_eq]
                simp only [valOutcome_writeText, plcOutcome_writeText, hpo]
                cases hvo : valOutcome tr lang e <;> simp [ha', hrefl']
              refine ⟨_, textMarkerStep_text tr lang hres hb1' hattr, ?_⟩
              rw [writeText_syncTail_writeText]
              exact syncTail_idem tr lang (writeText e s)

/-- If the text loop threw, re-running it on the partially processed list
stops at the same element with everything unchanged. -/
theorem textPass_throw_fixed (tr : List (String × JSVal)) (lang : String) :
    ∀ doc l, textPass tr lang doc = (l, true) → textPass tr lang l = (l, true) := by
  intro doc
  induction doc with
  | nil =>
    intro l h
    rw [textPass] at h
    exact absurd (congrArg Prod.snd h) (by simp)
  | cons e es ih =>
    intro l h
    rw [textPass] at h
    cases hstep : textMarkerStep tr lang e with
    | some e1 =>
      rw [hstep] at h
      dsimp only at h
      have h1 : e1 :: (textPass tr lang es).1 = l := congrArg Prod.fst h
      have h2 : (textPass tr lang es).2 = true := congrArg Prod.snd h
      have hes : textPass tr lang es = ((textPass tr lang es).1, true) := by
        rw [← h2]
      have ihr := ih (textPass tr lang es).1 hes
      subst h1
      rw [textPass, textMarkerStep_fixed tr lang hstep]
      dsimp only
      rw [ihr]
    | none =>
      rw [hstep] at h
      dsimp only at h
      have h1 : e :: es = l := congrArg Prod.fst h
      subst h1
      rw [textPass, hstep]

/-- If the text loop completed without throwing, running it again after the
tail loops completes without throwing, and the tail loops then reproduce the
same document. -/
theorem textPass_noThrow_roundtrip (tr : List (String × JSVal))
    (lang : String) :
    ∀ doc l, textPass tr lang doc = (l, false) →
      ∃ l2, textPass tr lang (l.map (syncTail tr lang)) = (l2, false)
        ∧ l2.map (syncTail tr lang) = l.map (syncTail tr lang) := by
  intro doc
  induction doc with
  | nil =>
    intro l h
    rw [textPass] at h
    have h1 : ([] : List Element) = l := congrArg Prod.fst h
    subst h1
    exact ⟨[], by rw [List.map_nil, textPass], rfl⟩
  | cons e es ih =>
    intro l h
    rw [textPass] at h
    cases hstep : textMarkerStep tr lang e with
    | none =>
      rw [hstep] at h
      dsimp only at h
      exact absurd (congrArg Prod.snd h) (by simp)
    | some e1 =>
      rw [hstep] at h
      dsimp only at h
      have h1 : e1 :: (textPass tr lang es).1 = l := congrArg Prod.fst h
      have h2 : (textPass tr lang es).2 = false := congrArg Prod.snd h
      have hes : textPass tr lang es = ((textPass tr lang es).1, false) := by
        rw [← h2]
      obtain ⟨l2', hP, hM⟩ := ih (textPass tr lang es).1 hes
      obtain ⟨y, hy1, hy2⟩ := textMarkerStep_roundtrip tr lang hstep
      subst h1
      refine ⟨y :: l2', ?_, ?_⟩
      · rw [List.map_cons, textPass, hy1]
        dsimp only
        rw [hP]
      · rw [List.map_cons, List.map_cons, hy2, hM]

/-- C2: `applyTranslations` is idempotent — running the full synchronization
pass a second time with the same translation record and language changes
nothing, across all three marker categories (`data-i18n` text,
`data-i18n-placeholder`, `data-i18n-value`), including the runs cut short
by a `TypeError` on a non-string truthy translation. -/
theorem c2_applyTranslations_idempotent (tr : List (String × JSVal))
    (lang : String) (doc : List Element) :
    SimpleToggle.applyTranslations tr lang
        (SimpleToggle.applyTranslations tr lang doc)
      = SimpleToggle.applyTranslations tr lang doc := by
  have hmap : ∀ l : List Element,
      (l.map (placeholderMarkerStep tr lang)).map (valueMarkerStep tr lang)
        = l.map (syncTail tr lang) := by
    intro l
    rw [List.map_map]
    rfl
  unfold SimpleToggle.applyTranslations
  cases hl : assocLookup tr lang with
  | none => rfl
  | some tv =>
    dsimp only
    by_cases ht : truthy tv = false
    · simp only [if_pos ht]
    · simp only [if_neg ht]
      by_cases hk : jsKeysLength tv = 0
      · simp only [if_pos hk]
      · simp only [if_neg hk]
        cases hR : textPass tr lang doc with
        | mk l thrown =>
          cases thrown with
          | true =>
            have hfix := textPass_throw_fixed tr lang doc l hR
            simp [hfix]
          | false =>
            obtain ⟨l2, hP, hM⟩ := textPass_noThrow_roundtrip tr lang doc l hR
            simp [hmap, hP, hM]

/-! ### Misses leave an element alone (C7) -/

theorem txtResolve_of_miss (tr : List (String × JSVal)) (lang : String)
    {e : Element}
    (h : ∀ k, e.dataI18n = some k → SimpleToggle.getTranslation tr k lang = none) :
    txtResolve tr lang e = none := by
  unfold txtResolve
  cases hd : e.dataI18n with
  | none => rfl
  | some k =>
    dsimp only
    rw [h k hd]

theorem plcOutcome_of_miss (tr : List (String × JSVal)) (lang : String)
    {e : Element}
    (h : ∀ k, e.dataI18nPlaceholder = some k →
      SimpleToggle.getTranslation tr k lang = none) :
    plcOutcome tr lang e = none := by
  unfold plcOutcome
  cases hd : e.dataI18nPlaceholder with
  | none => rfl
  | some k =>
    dsimp only
    rw [h k hd]

theorem valOutcome_of_miss (tr : List (String × JSVal)) (lang : String)
    {e : Element}
    (h : ∀ k, e.dataI18nValue = some k →
      SimpleToggle.getTranslation tr k lang = none) :
    valOutcome tr lang e = none := by
  unfold valOutcome
  cases hd : e.dataI18nValue with
  | none => rfl
  | some k =>
    dsimp only
    rw [h k hd]

/-- Positional tracking of an untouched element through the text loop (also
when the loop throws somewhere). -/
theorem textPass_get_untouched (tr : List (String × JSVal)) (lang : String) :
    ∀ (doc : List Element) (i : Nat) (e : Element), doc.get? i = some e →
      textMarkerStep tr lang e = some e →
      (textPass tr lang doc).1.get? i = some e := by
  intro doc
  induction doc with
  | nil =>
    intro i e he _
    simp at he
  | cons d ds ih =>
    intro i e he hfix
    rw [textPass]
    cases hstep : textMarkerStep tr lang d with
    | some d' =>
      dsimp only
      cases i with
      | zero =>
        have hd : d = e := by
          simp at he
          exact he
        subst hd
        rw [hstep] at hfix
        have hde : d' = d := by injection hfix
        subst hde
        rfl
      | succ i =>
        exact ih i e he hfix
    | none =>
      dsimp only
      exact he

/-- C7: an element all of whose present markers resolve to NOT_FOUND is left
completely unchanged by a full synchronization pass — its content,
`placeholder` and `value` keep their previous values — and the pass raises
no exception at that element (its text-loop callback returns normally). -/
theorem c7_miss_leaves_element_unchanged (tr : List (String × JSVal))
    (lang : String) (doc : List Element) (i : Nat) (e : Element)
    (he : doc.get? i = some e)
    (h1 : ∀ k, e.dataI18n = some k →
      SimpleToggle.getTranslation tr k lang = none)
    (h2 : ∀ k, e.dataI18nPlaceholder = some k →
      SimpleToggle.getTranslation tr k lang = none)
    (h3 : ∀ k, e.dataI18nValue = some k →
      SimpleToggle.getTranslation tr k lang = none) :
    (SimpleToggle.applyTranslations tr lang doc).get? i = some e
    ∧ textMarkerStep tr lang e = some e := by
  have hfix : textMarkerStep tr lang e = some e :=
    textMarkerStep_miss tr lang (txtResolve_of_miss tr lang h1)
  have hP : placeholderMarkerStep tr lang e = e := by
    rw [placeholderMarkerStep_spec, plcOutcome_of_miss tr lang h2]
  have hV : valueMarkerStep tr lang e = e := by
    rw [valueMarkerStep_spec, valOutcome_of_miss tr lang h3]
  refine ⟨?_, hfix⟩
  unfold SimpleToggle.applyTranslations
  cases hl : assocLookup tr lang with
  | none => exact he
  | some tv =>
    dsimp only
    by_cases ht : truthy tv = false
    · simp only [if_pos ht]
      exact he
    · simp only [if_neg ht]
      by_cases hk : jsKeysLength tv = 0
      · simp only [if_pos hk]
        exact he
      · simp only [if_neg hk]
        have hT := textPass_get_untouched tr lang doc i e he hfix
        cases hR : textPass tr lang doc with
        | mk l thrown =>
          rw [hR] at hT
          cases thrown with
          | true => exact hT
          | false =>
            have hT' : l[i]? = some e := by simpa using hT
            simp [List.getElem?_map]
            exact ⟨e, hT', by rw [hP, hV]⟩

/-- Concrete element whose only marker key is absent from the tree. -/
def missElem : Element :=
  { tagName := "DIV", typeProp := "", dataI18n := some "missing.key",
    dataI18nPlaceholder := none, dataI18nValue := none,
    hasPlaceholderAttr := false, content := .text "original",
    placeholder := "", value := "" }

/-- Witness for C7 at a concrete document: the miss hypotheses hold and the
pass leaves the element in place, unchanged, without throwing. -/
theorem c7_miss_leaves_element_unchanged_witness :
    SimpleToggle.getTranslation [("en", treeABC)] "missing.key" "en" = none
    ∧ (SimpleToggle.applyTranslations [("en", treeABC)] "en"
        [missElem]).get? 0 = some missElem
    ∧ textMarkerStep [("en", treeABC)] "en" missElem = some missElem := by
  refine ⟨rfl, ?_⟩
  have h := c7_miss_leaves_element_unchanged [("en", treeABC)] "en" [missElem]
    0 missElem rfl
    (fun k hk => by
      injection hk with hk
      subst hk
      rfl)
    (fun k hk => by cases hk)
    (fun k hk => by cases hk)
  exact h

/-! ### `LocalizationEngine.updateContentWithDataAttributes`

    const elements = document.querySelectorAll('[data-i18n]');
    elements.forEach(element => {
      const key = element.getAttribute('data-i18n');
      const translation = this.getTranslation(key, translations);
      if (translation) {
        if (element.tagName === 'INPUT' || element.tagName === 'TEXTAREA') {
          if (element.hasAttribute('placeholder')) {
            element.placeholder = translation;
          }
        } else {
          element.textContent = translation;
        }
      }
    });
-/

/-- One `[data-i18n]` element of the engine's content pass. Unlike the
widget's pass it always writes plain `textContent`, never `innerHTML`, and
it never throws. -/
def engineContentStep (tree : JSVal) (e : Element) : Element :=
  match e.dataI18n with
  | none => e
  | some key =>
    match LocalizationEngine.getTranslation tree key with
    | none => e
    | some v =>
      if truthy v then
        if e.tagName = "INPUT" ∨ e.tagName = "TEXTAREA" then
          if e.hasPlaceholderAttr = true then
            setPlaceholderProp e (jsToString v)
          else e
        else { e with content := .text (jsToString v) }
      else e

/-- `LocalizationEngine.updateContentWithDataAttributes(translations)` over
the marker-carrying elements. -/
def updateContentWithDataAttributes (tree : JSVal) (elements : List Element) :
    List Element :=
  elements.map (engineContentStep tree)

/-- `{k: ""}`: a key that resolves to the empty string. -/
def treeEmptyStr : JSVal := .vObj [("k", .vStr "")]

/-- `{k: "<b>hi</b>"}`: a key that resolves to angle-bracket markup. -/
def treeMarkup : JSVal := .vObj [("k", .vStr "<b>hi</b>")]

/-- A plain `DIV` carrying only a `data-i18n="k"` marker. -/
def divElemK : Element :=
  { tagName := "DIV", typeProp := "", dataI18n := some "k",
    dataI18nPlaceholder := none, dataI18nValue := none,
    hasPlaceholderAttr := false, content := .text "orig",
    placeholder := "", value := "" }

/-- C6 counterexample, two parts. (1) The widget synchronizer does not
write a resolved empty string at all — `"" ` contains no angle brackets, so
the claim requires a plain-text write, but the truthiness guard
`if (translation)` skips it and the element keeps its old content. (2) The
engine synchronizer writes a resolved string that does contain both `<`
and `>` as escaped text (`textContent`), not as parsed markup, so "parsed
markup exactly when the string contains angle-bracket markup" fails on it
as well. -/
theorem c6_markup_policy_counterexample :
    (SimpleToggle.getTranslation [("en", treeEmptyStr)] "k" "en"
        = some (.vStr "")
      ∧ SimpleToggle.applyTranslations [("en", treeEmptyStr)] "en" [divElemK]
          = [divElemK]
      ∧ divElemK.content ≠ ContentState.text "")
    ∧ (LocalizationEngine.getTranslation treeMarkup "k"
        = some (.vStr "<b>hi</b>")
      ∧ jsIncludes "<b>hi</b>" '<' = true
      ∧ jsIncludes "<b>hi</b>" '>' = true
      ∧ engineContentStep treeMarkup divElemK
          = { divElemK with content := .text "<b>hi</b>" }
      ∧ ContentState.text "<b>hi</b>" ≠ ContentState.markup "<b>hi</b>") :=
  ⟨⟨rfl, rfl, by decide⟩, ⟨rfl, rfl, rfl, rfl, by decide⟩⟩

/-- C6 (amended): markup handling of the two synchronizers. In the widget
synchronizer, a text-marker hit on a *non-empty* resolved string that
reaches the text branch is written through `writeText` (first conjunct),
which writes parsed markup exactly when the string contains both `<` and
`>` and escaped text otherwise (second and third conjuncts); an empty
resolved string is skipped by the truthiness guard (see the
counterexample). The engine synchronizer always writes escaped text on its
non-input branch, regardless of angle brackets (last conjunct). -/
theorem c6_markup_policy_amended :
    (∀ (tr : List (String × JSVal)) (lang : String) (e : Element)
        (key s : String),
      e.dataI18n = some key →
      SimpleToggle.getTranslation tr key lang = some (.vStr s) →
      s ≠ "" →
      ¬(e.tagName = "INPUT" ∧ e.typeProp = "placeholder") →
      e.hasPlaceholderAttr = false →
      textMarkerStep tr lang e = some (writeText e s))
    ∧ (∀ (e : Element) (s : String),
        (jsIncludes s '<' && jsIncludes s '>') = true →
        writeText e s = { e with content := ContentState.markup s })
    ∧ (∀ (e : Element) (s : String),
        (jsIncludes s '<' && jsIncludes s '>') = false →
        writeText e s = { e with content := ContentState.text s })
    ∧ (∀ (tree : JSVal) (e : Element) (key : String) (v : JSVal),
        e.dataI18n = some key →
        LocalizationEngine.getTranslation tree key = some v →
        truthy v = true →
        ¬(e.tagName = "INPUT" ∨ e.tagName = "TEXTAREA") →
        engineContentStep tree e
          = { e with content := ContentState.text (jsToString v) }) := by
  refine ⟨?_, ?_, ?_, ?_⟩
  · intro tr lang e key s hd hres hs hb ha
    have hr : txtResolve tr lang e = some (.vStr s) := by
      unfold txtResolve
      rw [hd]
      dsimp only
      rw [hres]
      dsimp only
      rw [if_pos (by simp [truthy, hs])]
    exact textMarkerStep_text tr lang hr hb ha
  · intro e s h
    unfold writeText
    rw [if_pos h]
  · intro e s h
    unfold writeText
    rw [if_neg (by simp [h])]
  · intro tree e key v hd hres ht hb
    unfold engineContentStep
    rw [hd]
    dsimp only
    rw [hres]
    dsimp only
    rw [if_pos ht, if_neg hb]

/-- Witness for C6 (amended): the widget writes `{k: "<i>x</i>"}` as parsed
markup on a hit, and the engine writes the same string as escaped text. -/
theorem c6_markup_policy_amended_witness :
    textMarkerStep [("en", .vObj [("k", .vStr "<i>x</i>")])] "en" divElemK
        = some (writeText divElemK "<i>x</i>")
    ∧ writeText divElemK "<i>x</i>"
        = { divElemK with content := ContentState.markup "<i>x</i>" }
    ∧ engineContentStep treeMarkup divElemK
        = { divElemK with content := ContentState.text "<b>hi</b>" } := by
  refine ⟨?_, ?_, ?_⟩
  · exact c6_markup_policy_amended.1 [("en", .vObj [("k", .vStr "<i>x</i>")])]
      "en" divElemK "k" "<i>x</i>" rfl rfl (by decide) (by decide) rfl
  · exact c6_markup_policy_amended.2.1 divElemK "<i>x</i>" (by decide)
  · exact c6_markup_policy_amended.2.2.2 treeMarkup divElemK "k"
      (.vStr "<b>hi</b>") rfl rfl (by decide) (by decide)

/-! ### `SimpleLanguageToggle.getStoredLanguage`

    try {
      const stored = localStorage.getItem('marln_language_preference');
      return stored === 'ar' ? 'ar' : 'en';
    } catch (error) { return 'en'; }

The storage access is the input: `none` models `getItem` throwing (the
`catch` path), `some none` a missing key (`getItem` returns `null`), and
`some (some s)` a stored string. -/
def getStoredLanguage (access : Option (Option String)) : String :=
  match access with
  | none => "en"
  | some stored =>
    match stored with
    | some s => if s = "ar" then "ar" else "en"
    | none => "en"

/-- C10: reading the stored preference is total and always lands in
`{"en", "ar"}`; it returns `"ar"` exactly when storage access succeeded and
the stored value is the string `"ar"`, and `"en"` in every other case
(other stored values, missing value, storage throwing). -/
theorem c10_getStoredLanguage_total (access : Option (Option String)) :
    (getStoredLanguage access = "ar" ∨ getStoredLanguage access = "en")
    ∧ (getStoredLanguage access = "ar" ↔ access = some (some "ar")) := by
  match access with
  | none => simp [getStoredLanguage]
  | some none => simp [getStoredLanguage]
  | some (some s) =>
    by_cases hs : s = "ar"
    · subst hs
      simp [getStoredLanguage]
    · simp [getStoredLanguage, hs]

/-! ### The supported-languages registry and settings

`config/supported-languages.js` maps each code to its metadata; only the
code set and the `rtl` flag are consumed by the embedded operations, so the
registry is modelled as that projection (`ar` is the single entry with
`rtl: true`). `config/settings.js` supplies the constants below. -/

def SUPPORTED_LANGUAGES : List (String × Bool) :=
  [("en", false), ("ar", true), ("es", false), ("fr", false), ("de", false),
   ("zh", false), ("ja", false), ("ko", false), ("hi", false), ("pt", false)]

/-- `SUPPORTED_LANGUAGES[code]` is truthy (every entry is an object). -/
def isSupported (code : String) : Bool :=
  (assocLookup SUPPORTED_LANGUAGES code).isSome

/-- `isRTL` / `getLanguageInfo(code).rtl`: the registry entry's `rtl` flag,
`false` when the code (or `null`) is absent — both helpers fall back to a
non-RTL default (`false` / the `en` entry). -/
def rtlOf : Option String → Bool
  | some code => (assocLookup SUPPORTED_LANGUAGES code).getD false
  | none => false

def defaultLanguage : String := "en"

def fallbackLanguage : String := "en"

/-- `PERFORMANCE_SETTINGS.cache.expiry` (one hour in milliseconds). -/
def cacheExpiry : Nat := 3600000

/-- `LOCALIZATION_SETTINGS.language.cookieName`. -/
def cookieName : String := "marln-lang"

/-- DOMString coercion of a nullable language code (`String(null)` is
`"null"`, as in `document.documentElement.lang = null`). -/
def optLang : Option String → String
  | some s => s
  | none => "null"

/-! ### Engine state -/

/-- Document-level state the engine mutates besides the marker elements:
the `lang` and `dir` attributes of the root element and the `rtl`/`lang-*`
classes on `<html>` and `<body>`. -/
structure DocState where
  elements : List Element
  docLang : String
  docDir : String
  htmlClasses : List String
  bodyClasses : List String

/-- `LocalizationEngine` state: current/previous code (nullable), the
in-memory translations `Map`, the timestamped cache, the log of issued
fetches, the persisted preference, and the document. Performance counters
are bookkeeping with no control-flow effect and are omitted. -/
structure EngineState where
  currentLanguage : Option String
  previousLanguage : Option String
  translations : List (String × JSVal)
  cache : List (String × (JSVal × Nat))
  fetchLog : List String
  savedPref : Option String
  doc : DocState

/-- `classList.add`. -/
def addClass (cs : List String) (c : String) : List String :=
  if cs.contains c then cs else cs ++ [c]

/-- `classList.remove`. -/
def removeClass (cs : List String) (c : String) : List String :=
  cs.filter (fun x => x ≠ c)

/-! ### `LocalizationEngine.loadLanguage`

    try {
      if (this.cache.has(languageCode)) {
        const cached = this.cache.get(languageCode);
        if (Date.now() - cached.timestamp < PERFORMANCE_SETTINGS.cache.expiry) {
          this.translations.set(languageCode, cached.data);
          return cached.data;
        }
      }
      const response = await fetch(`/localization/languages/${languageCode}.json`);
      if (!response.ok) throw new Error(`Failed to load language: ${languageCode}`);
      const translations = await response.json();
      this.cache.set(languageCode, { data: translations, timestamp: Date.now() });
      this.translations.set(languageCode, translations);
      return translations;
    } catch (error) {
      if (languageCode !== LOCALIZATION_SETTINGS.language.fallbackLanguage) {
        return this.loadLanguage(LOCALIZATION_SETTINGS.language.fallbackLanguage);
      }
      throw error;
    }
-/

/-- The fetch path of `loadLanguage`: records the issued fetch; `none` from
the oracle is a network or parse failure. -/
def loadFetch (st : EngineState) (oracle : String → Option JSVal) (now : Nat)
    (code : String) : EngineState × Option JSVal :=
  let st1 := { st with fetchLog := st.fetchLog ++ [code] }
  match oracle code with
  | none => (st1, none)
  | some tree =>
    ({ st1 with cache := setAssoc st1.cache code (tree, now),
                translations := setAssoc st1.translations code tree },
     some tree)

/-- The `try` body of `loadLanguage`: fresh cache hit, else fetch. -/
def loadLanguageCore (st : EngineState) (oracle : String → Option JSVal)
    (now : Nat) (code : String) : EngineState × Option JSVal :=
  match assocLookup st.cache code with
  | some cd =>
    if now - cd.2 < cacheExpiry then
      ({ st with translations := setAssoc st.translations code cd.1 },
       some cd.1)
    else loadFetch st oracle now code
  | none => loadFetch st oracle now code

/-- `loadLanguage`: on failure for a non-fallback code, one recursive retry
against the fallback code; the retry's own catch re-throws (its code *is*
the fallback), so the recursion is unrolled to its maximal depth of two. -/
def loadLanguage (st : EngineState) (oracle : String → Option JSVal)
    (now : Nat) (code : String) : EngineState × Option JSVal :=
  match loadLanguageCore st oracle now code with
  | (st1, some t) => (st1, some t)
  | (st1, none) =>
    if code = fallbackLanguage then (st1, none)
    else loadLanguageCore st1 oracle now fallbackLanguage

/-! ### Page update -/

/-- `updateHTMLAttributes`: root `lang`, root `dir` plus `rtl` classes from
the current code's registry flag, and the `lang-*` class swap. -/
def updateHTMLAttributes (st : EngineState) : EngineState :=
  let cur := optLang st.currentLanguage
  let d1 := { st.doc with docLang := cur }
  let d2 :=
    if rtlOf st.currentLanguage then
      { d1 with docDir := "rtl", htmlClasses := addClass d1.htmlClasses "rtl",
                bodyClasses := addClass d1.bodyClasses "rtl" }
    else
      { d1 with docDir := "ltr",
                htmlClasses := removeClass d1.htmlClasses "rtl",
                bodyClasses := removeClass d1.bodyClasses "rtl" }
  let d3 := { d2 with htmlClasses := addClass d2.htmlClasses ("lang-" ++ cur) }
  let d4 :=
    match st.previousLanguage with
    | some p =>
      if p = "" then d3
      else { d3 with htmlClasses := removeClass d3.htmlClasses ("lang-" ++ p) }
    | none => d3
  { st with doc := d4 }

/-- `this.translations.get(this.currentLanguage)` (`Map.get(null)` is
`undefined`). -/
def currentTree (st : EngineState) : Option JSVal :=
  match st.currentLanguage with
  | some c => assocLookup st.translations c
  | none => none

def applyContentToDoc (tree : JSVal) (st : EngineState) : EngineState :=
  { st with doc :=
      { st.doc with elements :=
          updateContentWithDataAttributes tree st.doc.elements } }

/-- `updatePage`: aborts (through its own `catch`, touching nothing) when no
tree is stored under the current code; on a hit it updates the root
attributes and rewrites the `[data-i18n]` elements. The selector-addressed
rewrites (`updateNavigation`, `updateForms`, `updateMetaTags`) target fixed
menu/form/meta nodes outside the marker model and are not represented. -/
def updatePage (st : EngineState) : EngineState :=
  match currentTree st with
  | none => st
  | some tree => applyContentToDoc tree (updateHTMLAttributes st)

/-- `updateRTL`: adds or removes the `rtl` classes from the current code's
registry flag (`getLanguageInfo` falls back to the non-RTL `en` entry for
unknown or null codes). The mobile-menu inline styles are
selector-addressed and outside the marker model. -/
def updateRTL (st : EngineState) : EngineState :=
  if rtlOf st.currentLanguage then
    { st with doc :=
        { st.doc with htmlClasses := addClass st.doc.htmlClasses "rtl",
                      bodyClasses := addClass st.doc.bodyClasses "rtl" } }
  else
    { st with doc :=
        { st.doc with htmlClasses := removeClass st.doc.htmlClasses "rtl",
                      bodyClasses := removeClass st.doc.bodyClasses "rtl" } }

/-! ### `LocalizationEngine.setLanguage`

    try {
      if (!SUPPORTED_LANGUAGES[languageCode]) throw new Error(`Unsupported language: ${languageCode}`);
      this.previousLanguage = this.currentLanguage;
      this.currentLanguage = languageCode;
      if (!this.translations.has(languageCode)) await this.loadLanguage(languageCode);
      await this.updatePage();
      this.updateRTL();
      this.saveLanguage(languageCode);
      this.emit('languageChanged', {...});
    } catch (error) {
      this.handleError(error);
      this.currentLanguage = this.previousLanguage;
    }
-/

/-- The tail of a successful `setLanguage`: `updatePage` (which catches its
own errors), `updateRTL`, then `saveLanguage` (best-effort persistence,
modelled as the `savedPref` field). -/
def setLanguageTail (st : EngineState) (code : String) : EngineState :=
  let st3 := updatePage st
  let st4 := updateRTL st3
  { st4 with savedPref := some code }

/-- `setLanguage`. Note the `catch` assigns
`this.currentLanguage = this.previousLanguage` — and on the unsupported
path the throw happens *before* `previousLanguage` is refreshed, so the
stale `previousLanguage` (initially `null`) is installed. -/
def setLanguage (st : EngineState) (oracle : String → Option JSVal)
    (now : Nat) (code : String) : EngineState :=
  if isSupported code = false then
    { st with currentLanguage := st.previousLanguage }
  else
    let st1 := { st with previousLanguage := st.currentLanguage,
                         currentLanguage := some code }
    if (assocLookup st1.translations code).isSome then
      setLanguageTail st1 code
    else
      match loadLanguage st1 oracle now code with
      | (st2, none) => { st2 with currentLanguage := st2.previousLanguage }
      | (st2, some _) => setLanguageTail st2 code

/-! ### `LocalizationEngine.getSavedLanguage` and `init`

    try {
      const saved = localStorage.getItem(LOCALIZATION_SETTINGS.language.localStorageKey);
      if (saved && SUPPORTED_LANGUAGES[saved]) return saved;
      const cookies = document.cookie.split(';');
      for (const cookie of cookies) {
        const [name, value] = cookie.trim().split('=');
        if (name === LOCALIZATION_SETTINGS.language.cookieName && SUPPORTED_LANGUAGES[value]) return value;
      }
      const urlParams = new URLSearchParams(window.location.search);
      const urlLang = urlParams.get(LOCALIZATION_SETTINGS.language.urlParameter);
      if (urlLang && SUPPORTED_LANGUAGES[urlLang]) return urlLang;
      return null;
    } catch (error) { return null; }
-/

/-- `s.split(sep)` for a one-character separator, character by character
(keeps empty segments, maps `""` to `[""]`). -/
def splitCharAux (sep : Char) : List Char → List Char → List String
  | [], acc => [String.mk acc.reverse]
  | c :: cs, acc =>
    if c = sep then String.mk acc.reverse :: splitCharAux sep cs []
    else splitCharAux sep cs (c :: acc)

def splitChar (sep : Char) (s : String) : List String :=
  splitCharAux sep s.toList []

/-- `s.trim()`. -/
def jsTrim (s : String) : String :=
  String.mk
    (((s.toList.dropWhile Char.isWhitespace).reverse.dropWhile
      Char.isWhitespace).reverse)

/-- The cookie loop: first cookie whose name is the configured cookie name
and whose value is a registry code (a cookie without `=` leaves `value`
undefined, which fails the registry check). -/
def findCookieLang : List String → Option String
  | [] => none
  | c :: rest =>
    match splitChar '=' (jsTrim c) with
    | [] => findCookieLang rest
    | n :: vs =>
      match vs.head? with
      | some v =>
        if n = cookieName ∧ isSupported v = true then some v
        else findCookieLang rest
      | none => findCookieLang rest

/-- The cookie-then-URL part of `getSavedLanguage`. `urlLang` is the result
of `new URLSearchParams(location.search).get('lang')` (`none` = absent). -/
def savedFromCookieOrURL (cookieStr : String) (urlLang : Option String) :
    Option String :=
  match findCookieLang (splitChar ';' cookieStr) with
  | some v => some v
  | none =>
    match urlLang with
    | some u => if u ≠ "" ∧ isSupported u = true then some u else none
    | none => none

/-- `getSavedLanguage`: localStorage, then cookies, then the URL parameter,
each candidate gated by registry membership (and JavaScript truthiness, so
a stored empty string is skipped); `throws` models a storage access
exception, caught to `null`. -/
def getSavedLanguage (throws : Bool) (ls : Option String)
    (cookieStr : String) (urlLang : Option String) : Option String :=
  if throws then none
  else
    match ls with
    | some saved =>
      if saved ≠ "" ∧ isSupported saved = true then some saved
      else savedFromCookieOrURL cookieStr urlLang
    | none => savedFromCookieOrURL cookieStr urlLang

/-- `initializeRTL`: applies RTL styling only when the current code is
RTL. -/
def initializeRTL (st : EngineState) : EngineState :=
  if rtlOf st.currentLanguage then updateRTL st else st

/-- `LocalizationEngine.init`: load the default (constructor-set) language;
on failure the `catch` stops initialization. Then, when a saved preference
exists and differs from the current code, switch to it; finally
`initializeRTL`. Preloading (`preloadLanguages`) only warms the cache and
never changes the language state, and the event-listener registration has
no state effect; both are omitted. -/
def engineInit (st : EngineState) (oracle : String → Option JSVal) (now : Nat)
    (throws : Bool) (ls : Option String) (cookieStr : String)
    (urlLang : Option String) : EngineState :=
  match loadLanguage st oracle now (optLang st.currentLanguage) with
  | (st1, none) => st1
  | (st1, some _) =>
    match getSavedLanguage throws ls cookieStr urlLang with
    | some saved =>
      if saved ≠ "" ∧ some saved ≠ st1.currentLanguage then
        initializeRTL (setLanguage st1 oracle now saved)
      else initializeRTL st1
    | none => initializeRTL st1

/-! ### Association-list helper lemmas -/

theorem assocLookup_setAssoc_self {α : Type} (l : List (String × α))
    (k : String) (v : α) : assocLookup (setAssoc l k v) k = some v := by
  induction l with
  | nil => simp [setAssoc, assocLookup]
  | cons p rest ih =>
    by_cases h : p.1 = k
    · simp [setAssoc, assocLookup, h]
    · simp [setAssoc, assocLookup, h, ih]

theorem assocLookup_setAssoc_ne {α : Type} (l : List (String × α))
    (k k' : String) (v : α) (h : k' ≠ k) :
    assocLookup (setAssoc l k v) k' = assocLookup l k' := by
  induction l with
  | nil => simp [setAssoc, assocLookup, Ne.symm h]
  | cons p rest ih =>
    by_cases hp : p.1 = k
    · simp [setAssoc, assocLookup, hp, Ne.symm h]
    · simp [setAssoc, assocLookup, hp, ih]

/-! ### C4: unsupported code (code bug) -/

/-- A fresh document (no markers yet relevant). -/
def initialDoc : DocState :=
  { elements := [], docLang := "en", docDir := "ltr", htmlClasses := [],
    bodyClasses := [] }

/-- Constructor state of `LocalizationEngine`: `currentLanguage` is the
default `'en'`, `previousLanguage` is `null`, no translations, empty
cache. -/
def freshEngine : EngineState :=
  { currentLanguage := some "en", previousLanguage := none,
    translations := [], cache := [], fetchLog := [], savedPref := none,
    doc := initialDoc }

/-- C4 evaluation at the failing input: `"xx"` is not in the registry, the
call issues no fetch — that half of the claim holds — but the `catch`
installs the stale `previousLanguage`, so on a fresh engine the current
language changes from `'en'` to `null` instead of staying unchanged. -/
theorem c4_unsupported_language_eval :
    isSupported "xx" = false
    ∧ (setLanguage freshEngine (fun _ => none) 0 "xx").fetchLog = []
    ∧ freshEngine.currentLanguage = some "en"
    ∧ (setLanguage freshEngine (fun _ => none) 0 "xx").currentLanguage = none :=
  ⟨rfl, rfl, rfl, rfl⟩

/-! ### Engine-state projection lemmas -/

@[simp] theorem updateHTMLAttributes_currentLanguage (st : EngineState) :
    (updateHTMLAttributes st).currentLanguage = st.currentLanguage := by
  unfold updateHTMLAttributes
  cases st.previousLanguage <;> simp <;> split <;> simp <;> split <;> simp

@[simp] theorem updateHTMLAttributes_translations (st : EngineState) :
    (updateHTMLAttributes st).translations = st.translations := by
  unfold updateHTMLAttributes
  cases st.previousLanguage <;> simp <;> split <;> simp <;> split <;> simp

@[simp] theorem updateHTMLAttributes_elements (st : EngineState) :
    (updateHTMLAttributes st).doc.elements = st.doc.elements := by
  unfold updateHTMLAttributes
  cases st.previousLanguage <;> simp [addClass] <;> split <;>
    simp [addClass] <;> split <;> simp [addClass]

@[simp] theorem updateRTL_currentLanguage (st : EngineState) :
    (updateRTL st).currentLanguage = st.currentLanguage := by
  unfold updateRTL
  split <;> simp

@[simp] theorem updateRTL_translations (st : EngineState) :
    (updateRTL st).translations = st.translations := by
  unfold updateRTL
  split <;> simp

@[simp] theorem updateRTL_elements (st : EngineState) :
    (updateRTL st).doc.elements = st.doc.elements := by
  unfold updateRTL
  split <;> simp

@[simp] theorem updateRTL_docDir (st : EngineState) :
    (updateRTL st).doc.docDir = st.doc.docDir := by
  unfold updateRTL
  split <;> simp

theorem updatePage_miss (st : EngineState) (h : currentTree st = none) :
    updatePage st = st := by
  unfold updatePage
  rw [h]

theorem updatePage_hit (st : EngineState) (tree : JSVal)
    (h : currentTree st = some tree) :
    updatePage st = applyContentToDoc tree (updateHTMLAttributes st) := by
  unfold updatePage
  rw [h]

@[simp] theorem updatePage_currentLanguage (st : EngineState) :
    (updatePage st).currentLanguage = st.currentLanguage := by
  unfold updatePage
  cases h : currentTree st <;> simp [applyContentToDoc]

@[simp] theorem updatePage_translations (st : EngineState) :
    (updatePage st).translations = st.translations := by
  unfold updatePage
  cases h : currentTree st <;> simp [applyContentToDoc]

@[simp] theorem setLanguageTail_currentLanguage (st : EngineState)
    (code : String) :
    (setLanguageTail st code).currentLanguage = st.currentLanguage := by
  unfold setLanguageTail
  simp

/-! ### C3: failed load of a non-fallback code -/

/-- Computation of `loadLanguage('ar')` when the `ar` fetch fails and the
`en` (fallback) fetch succeeds, starting from a cache with neither code:
both fetches are issued, and the fallback tree is stored — under the
fallback code `"en"`, not under `"ar"` — and returned. -/
theorem loadLanguage_ar_fallback (st : EngineState)
    (oracle : String → Option JSVal) (now : Nat) (enTree : JSVal)
    (h1 : oracle "ar" = none) (h2 : oracle "en" = some enTree)
    (hc1 : assocLookup st.cache "ar" = none)
    (hc2 : assocLookup st.cache "en" = none) :
    loadLanguage st oracle now "ar" =
      ({ st with fetchLog := st.fetchLog ++ ["ar"] ++ ["en"],
                 cache := setAssoc st.cache "en" (enTree, now),
                 translations := setAssoc st.translations "en" enTree },
       some enTree) := by
  have hcore1 : loadLanguageCore st oracle now "ar" =
      ({ st with fetchLog := st.fetchLog ++ ["ar"] }, none) := by
    unfold loadLanguageCore
    rw [hc1]
    unfold loadFetch
    rw [h1]
  have hcore2 : loadLanguageCore
      { st with fetchLog := st.fetchLog ++ ["ar"] } oracle now "en" =
      ({ st with fetchLog := st.fetchLog ++ ["ar"] ++ ["en"],
                 cache := setAssoc st.cache "en" (enTree, now),
                 translations := setAssoc st.translations "en" enTree },
       some enTree) := by
    unfold loadLanguageCore
    rw [show ({ st with fetchLog := st.fetchLog ++ ["ar"] } :
        EngineState).cache = st.cache from rfl, hc2]
    unfold loadFetch
    rw [h2]
  unfold loadLanguage
  rw [hcore1]
  dsimp only
  rw [if_neg (by decide : ¬("ar" : String) = fallbackLanguage)]
  exact hcore2

/-- When the fallback code itself fails (cache miss, failed fetch), the
failure propagates to the caller of `loadLanguage`. -/
theorem loadLanguage_fallback_propagates (st : EngineState)
    (oracle : String → Option JSVal) (now : Nat)
    (h : oracle "en" = none) (hc : assocLookup st.cache "en" = none) :
    (loadLanguage st oracle now "en").2 = none := by
  have hcore : loadLanguageCore st oracle now "en" =
      ({ st with fetchLog := st.fetchLog ++ ["en"] }, none) := by
    unfold loadLanguageCore
    rw [hc]
    unfold loadFetch
    rw [h]
  unfold loadLanguage
  rw [hcore]
  dsimp only
  rw [if_pos (by decide : ("en" : String) = fallbackLanguage)]

/-- C3 (amended): when loading `'ar'` fails and the fallback `'en'`
succeeds, `loadLanguage` returns the fallback tree, but stores it under the
fallback code only; `setLanguage('ar')` then *keeps* `'ar'` as the current
language (not the fallback code), and the page's marker elements are left
untouched, because `updatePage` finds no tree stored under `'ar'` and
aborts. If the fallback code itself fails to load, the failure propagates
to `loadLanguage`'s caller (last conjunct). -/
theorem c3_fallback_load_amended (st : EngineState)
    (oracle : String → Option JSVal) (now : Nat) (enTree : JSVal)
    (h1 : oracle "ar" = none) (h2 : oracle "en" = some enTree)
    (hc1 : assocLookup st.cache "ar" = none)
    (hc2 : assocLookup st.cache "en" = none)
    (ht : assocLookup st.translations "ar" = none) :
    (loadLanguage st oracle now "ar").2 = some enTree
    ∧ assocLookup (loadLanguage st oracle now "ar").1.translations "en"
        = some enTree
    ∧ assocLookup (loadLanguage st oracle now "ar").1.translations "ar"
        = none
    ∧ (setLanguage st oracle now "ar").currentLanguage = some "ar"
    ∧ (setLanguage st oracle now "ar").doc.elements = st.doc.elements
    ∧ (∀ oracle2 : String → Option JSVal, oracle2 "en" = none →
        (loadLanguage st oracle2 now "en").2 = none) := by
  have hload := loadLanguage_ar_fallback st oracle now enTree h1 h2 hc1 hc2
  have harne : ("ar" : String) ≠ "en" := by decide
  have hset : setLanguage st oracle now "ar" =
      setLanguageTail
        { st with previousLanguage := st.currentLanguage,
                  currentLanguage := some "ar",
                  fetchLog := st.fetchLog ++ ["ar"] ++ ["en"],
                  cache := setAssoc st.cache "en" (enTree, now),
                  translations := setAssoc st.translations "en" enTree }
        "ar" := by
    unfold setLanguage
    rw [if_neg (by decide : ¬(isSupported "ar" = false))]
    dsimp only
    rw [ht]
    rw [if_neg (by simp)]
    rw [loadLanguage_ar_fallback
      { st with previousLanguage := st.currentLanguage,
                currentLanguage := some "ar" } oracle now enTree h1 h2 hc1 hc2]
  refine ⟨by rw [hload], ?_, ?_, ?_, ?_, ?_⟩
  · rw [hload]
    exact assocLookup_setAssoc_self st.translations "en" enTree
  · rw [hload]
    dsimp only
    rw [assocLookup_setAssoc_ne st.translations "en" "ar" enTree harne]
    exact ht
  · rw [hset]
    rw [setLanguageTail_currentLanguage]
  · rw [hset]
    unfold setLanguageTail
    dsimp only
    rw [updatePage_miss _ (by
      unfold currentTree
      dsimp only
      rw [assocLookup_setAssoc_ne st.translations "en" "ar" enTree harne]
      exact ht)]
    simp
  · intro oracle2 h3
    exact loadLanguage_fallback_propagates st oracle2 now h3 hc2

/-- `{k: "Hello"}` — the fallback (`en`) tree of the C3 scenario. -/
def treeHello : JSVal := .vObj [("k", .vStr "Hello")]

/-- A fetch oracle where only the `en` resource loads; any other code
(e.g. `ar`) fails. -/
def oracleEnOnly : String → Option JSVal :=
  fun c => if c = "en" then some treeHello else none

/-- A fresh engine whose document holds one `data-i18n="k"` element. -/
def engineStateK : EngineState :=
  { freshEngine with doc :=
      { elements := [divElemK], docLang := "en", docDir := "ltr",
        htmlClasses := [], bodyClasses := [] } }

/-- C3 counterexample: with the `ar` fetch failing and `en` succeeding,
after `setLanguage('ar')` the engine's current language is the originally
requested `'ar'`, not the fallback `'en'` the claim promises, and the
marker element still reads `"orig"` — the fallback tree, which would have
written `"Hello"` into it, was never applied to the page. -/
theorem c3_fallback_not_applied_counterexample :
    (setLanguage engineStateK oracleEnOnly 0 "ar").currentLanguage = some "ar"
    ∧ (some "ar" : Option String) ≠ some "en"
    ∧ (setLanguage engineStateK oracleEnOnly 0 "ar").doc.elements = [divElemK]
    ∧ divElemK.content = ContentState.text "orig"
    ∧ engineContentStep treeHello divElemK
        = { divElemK with content := ContentState.text "Hello" }
    ∧ ContentState.text "orig" ≠ ContentState.text "Hello" :=
  ⟨rfl, by decide, rfl, rfl, rfl, by decide⟩

/-- Witness for C3 (amended) at the concrete failing scenario. -/
theorem c3_fallback_load_amended_witness :
    oracleEnOnly "ar" = none
    ∧ oracleEnOnly "en" = some treeHello
    ∧ assocLookup engineStateK.translations "ar" = none
    ∧ (loadLanguage engineStateK oracleEnOnly 0 "ar").2 = some treeHello
    ∧ (setLanguage engineStateK oracleEnOnly 0 "ar").currentLanguage
        = some "ar"
    ∧ (setLanguage engineStateK oracleEnOnly 0 "ar").doc.elements
        = [divElemK] := by
  have h := c3_fallback_load_amended engineStateK oracleEnOnly 0 treeHello
    rfl rfl rfl rfl rfl
  refine ⟨rfl, rfl, rfl, h.1, h.2.2.2.1, ?_⟩
  rw [h.2.2.2.2.1]
  rfl

/-! ### C5: language round trip through the engine -/

/-- The truthy translation the engine's content pass resolves for an
element, if any. -/
def engResolve (tree : JSVal) (e : Element) : Option JSVal :=
  match e.dataI18n with
  | none => none
  | some key =>
    match LocalizationEngine.getTranslation tree key with
    | none => none
    | some v => if truthy v then some v else none

/-- `engineContentStep` in terms of its decision outcome. -/
theorem engineContentStep_spec (tree : JSVal) (e : Element) :
    engineContentStep tree e =
      match engResolve tree e with
      | none => e
      | some v =>
        if e.tagName = "INPUT" ∨ e.tagName = "TEXTAREA" then
          if e.hasPlaceholderAttr = true then
            setPlaceholderProp e (jsToString v)
          else e
        else { e with content := .text (jsToString v) } := by
  unfold engineContentStep engResolve
  cases hd : e.dataI18n with
  | none => rfl
  | some key =>
    dsimp only
    cases hv : LocalizationEngine.getTranslation tree key with
    | none => rfl
    | some v =>
      dsimp only
      by_cases ht : truthy v = true <;> simp [ht]

theorem engResolve_congr (tree : JSVal) {x y : Element}
    (h : x.dataI18n = y.dataI18n) : engResolve tree x = engResolve tree y := by
  unfold engResolve
  rw [h]

@[simp] theorem engResolve_setPlaceholderProp (tree : JSVal) (x : Element)
    (s : String) :
    engResolve tree (setPlaceholderProp x s) = engResolve tree x :=
  engResolve_congr tree (setPlaceholderProp_dataI18n x s)

@[simp] theorem engResolve_contentText (tree : JSVal) (x : Element)
    (c : ContentState) :
    engResolve tree { x with content := c } = engResolve tree x := rfl

/-- `engResolve` is truthy-gated: a hit means the element has a marker key
whose engine resolution is truthy. -/
theorem engResolve_some (tree : JSVal) (e : Element) (v : JSVal)
    (h : engResolve tree e = some v) :
    ∃ key, e.dataI18n = some key
      ∧ LocalizationEngine.getTranslation tree key = some v
      ∧ truthy v = true := by
  unfold engResolve at h
  cases hd : e.dataI18n with
  | none => rw [hd] at h; exact absurd h (by simp)
  | some key =>
    rw [hd] at h
    dsimp only at h
    cases hv : LocalizationEngine.getTranslation tree key with
    | none => rw [hv] at h; exact absurd h (by simp)
    | some w =>
      rw [hv] at h
      dsimp only at h
      by_cases ht : truthy w = true
      · rw [if_pos ht] at h
        have hwv : w = v := by injection h
        subst hwv
        exact ⟨key, rfl, hv, ht⟩
      · rw [if_neg ht] at h
        exact absurd h (by simp)

/-- Per-element round trip for the engine's content pass: given that every
key truthy in the Arabic tree is also truthy in the English tree (the
mirrored-trees interface contract of the translation resources), applying
English, then Arabic, then English again equals applying English once. -/
theorem engineContentStep_roundtrip (enT arT : JSVal)
    (H : ∀ k, truthyO (LocalizationEngine.getTranslation arT k) = true →
      truthyO (LocalizationEngine.getTranslation enT k) = true)
    (e : Element) :
    engineContentStep enT (engineContentStep arT (engineContentStep enT e))
      = engineContentStep enT e := by
  have hhit : ∀ x : Element, x.dataI18n = e.dataI18n →
      engResolve arT x = engResolve arT e := fun x hx => engResolve_congr arT hx
  rw [engineContentStep_spec enT e]
  cases hen : engResolve enT e with
  | none =>
    dsimp only
    have harn : engResolve arT e = none := by
      cases har : engResolve arT e with
      | none => rfl
      | some w =>
        obtain ⟨key, hk, hv, ht⟩ := engResolve_some arT e w har
        have htro : truthyO (LocalizationEngine.getTranslation enT key)
            = true := H key (by rw [hv]; exact ht)
        have : engResolve enT e ≠ none := by
          unfold engResolve
          rw [hk]
          dsimp only
          cases hv2 : LocalizationEngine.getTranslation enT key with
          | none => rw [hv2] at htro; exact absurd htro (by simp [truthyO])
          | some w2 =>
            rw [hv2] at htro
            simp only [truthyO] at htro
            simp [htro]
        exact absurd hen this
    rw [engineContentStep_spec arT e, harn]
    dsimp only
    rw [engineContentStep_spec enT e, hen]
  | some v =>
    dsimp only
    by_cases hb : e.tagName = "INPUT" ∨ e.tagName = "TEXTAREA"
    · by_cases ha : e.hasPlaceholderAttr = true
      · rw [if_pos hb, if_pos ha]
        rw [engineContentStep_spec arT (setPlaceholderProp e (jsToString v))]
        rw [engResolve_setPlaceholderProp]
        cases har : engResolve arT e with
        | none =>
          dsimp only
          rw [engineContentStep_spec enT (setPlaceholderProp e (jsToString v))]
          rw [engResolve_setPlaceholderProp, hen]
          dsimp only
          simp [hb, ha, setPlaceholderProp_setPlaceholderProp]
        | some w =>
          dsimp only
          rw [if_pos (by simpa using hb), if_pos (by simp [ha])]
          rw [setPlaceholderProp_setPlaceholderProp]
          rw [engineContentStep_spec enT (setPlaceholderProp e (jsToString w))]
          rw [engResolve_setPlaceholderProp, hen]
          dsimp only
          simp [hb, ha, setPlaceholderProp_setPlaceholderProp]
      · rw [if_pos hb, if_neg ha]
        rw [engineContentStep_spec arT e]
        cases har : engResolve arT e with
        | none =>
          dsimp only
          rw [engineContentStep_spec enT e, hen]
          dsimp only
          rw [if_pos hb, if_neg ha]
        | some w =>
          dsimp only
          rw [if_pos hb, if_neg ha]
          rw [engineContentStep_spec enT e, hen]
          dsimp only
          rw [if_pos hb, if_neg ha]
    · rw [if_neg hb]
      rw [engineContentStep_spec arT { e with content := .text (jsToString v) }]
      rw [engResolve_contentText]
      cases har : engResolve arT e with
      | none =>
        dsimp only
        rw [engineContentStep_spec enT
          { e with content := .text (jsToString v) }]
        rw [engResolve_contentText, hen]
        dsimp only
        rw [if_neg (by simpa using hb)]
      | some w =>
        dsimp only
        rw [if_neg (by simpa using hb)]
        rw [engineContentStep_spec enT
          { e with content := .text (jsToString w) }]
        rw [engResolve_contentText, hen]
        dsimp only
        rw [if_neg (by simpa using hb)]

@[simp] theorem setLanguageTail_translations (st : EngineState)
    (code : String) :
    (setLanguageTail st code).translations = st.translations := by
  unfold setLanguageTail
  simp

@[simp] theorem updateHTMLAttributes_docDir (st : EngineState) :
    (updateHTMLAttributes st).doc.docDir
      = if rtlOf st.currentLanguage then "rtl" else "ltr" := by
  unfold updateHTMLAttributes
  cases st.previousLanguage <;> simp <;> split <;> simp <;> split <;> simp

/-- `setLanguage` on a code whose tree is already loaded: no fetch, straight
to the update tail. -/
theorem setLanguage_loaded (st : EngineState) (oracle : String → Option JSVal)
    (now : Nat) (code : String) (tree : JSVal)
    (hsup : isSupported code = true)
    (htr : assocLookup st.translations code = some tree) :
    setLanguage st oracle now code =
      setLanguageTail
        { st with previousLanguage := st.currentLanguage,
                  currentLanguage := some code } code := by
  unfold setLanguage
  rw [if_neg (by simp [hsup])]
  dsimp only
  rw [htr]
  rw [if_pos (by simp : ((some tree).isSome = true))]

theorem setLanguageTail_elements_of_hit (st : EngineState) (code : String)
    (tree : JSVal) (h : currentTree st = some tree) :
    (setLanguageTail st code).doc.elements
      = st.doc.elements.map (engineContentStep tree) := by
  unfold setLanguageTail
  dsimp only
  rw [updatePage_hit st tree h]
  simp [applyContentToDoc, updateContentWithDataAttributes]

theorem setLanguageTail_docDir_of_hit (st : EngineState) (code : String)
    (tree : JSVal) (h : currentTree st = some tree) :
    (setLanguageTail st code).doc.docDir
      = if rtlOf st.currentLanguage then "rtl" else "ltr" := by
  unfold setLanguageTail
  dsimp only
  rw [updatePage_hit st tree h]
  simp [applyContentToDoc]

/-- C5: starting from an English state (both trees loaded, document content
equal to an English application), switching the engine to Arabic and back
to English restores every marker-targeted element to its English-state
content and sets the document direction attribute back to `'ltr'`. The
hypothesis `H` is the translation-resource interface contract: every key
truthy in the Arabic tree is also truthy in the English tree (mirrored
trees). -/
theorem c5_language_round_trip_restores (st : EngineState)
    (oracle : String → Option JSVal) (now : Nat) (enT arT : JSVal)
    (base : List Element)
    (hcur : st.currentLanguage = some "en")
    (hen : assocLookup st.translations "en" = some enT)
    (har : assocLookup st.translations "ar" = some arT)
    (hdoc : st.doc.elements = base.map (engineContentStep enT))
    (H : ∀ k, truthyO (LocalizationEngine.getTranslation arT k) = true →
      truthyO (LocalizationEngine.getTranslation enT k) = true) :
    (setLanguage (setLanguage st oracle now "ar") oracle now
        "en").doc.elements = st.doc.elements
    ∧ (setLanguage (setLanguage st oracle now "ar") oracle now
        "en").doc.docDir = "ltr"
    ∧ (setLanguage (setLanguage st oracle now "ar") oracle now
        "en").currentLanguage = some "en" := by
  have hA : setLanguage st oracle now "ar" =
      setLanguageTail
        { st with previousLanguage := st.currentLanguage,
                  currentLanguage := some "ar" } "ar" :=
    setLanguage_loaded st oracle now "ar" arT (by decide) har
  have hhit1 : currentTree ({ st with
      previousLanguage := st.currentLanguage,
      currentLanguage := some "ar" }) = some arT := by
    unfold currentTree
    dsimp only
    exact har
  have hAelem : (setLanguage st oracle now "ar").doc.elements
      = st.doc.elements.map (engineContentStep arT) := by
    rw [hA]
    exact setLanguageTail_elements_of_hit _ "ar" arT hhit1
  have hAtrans : (setLanguage st oracle now "ar").translations
      = st.translations := by
    rw [hA, setLanguageTail_translations]
  have hB : setLanguage (setLanguage st oracle now "ar") oracle now "en" =
      setLanguageTail
        { (setLanguage st oracle now "ar") with
            previousLanguage := (setLanguage st oracle now
              "ar").currentLanguage,
            currentLanguage := some "en" } "en" :=
    setLanguage_loaded (setLanguage st oracle now "ar") oracle now "en" enT
      (by decide) (by rw [hAtrans]; exact hen)
  have hhit2 : currentTree ({ (setLanguage st oracle now "ar") with
      previousLanguage := (setLanguage st oracle now "ar").currentLanguage,
      currentLanguage := some "en" }) = some enT := by
    unfold currentTree
    dsimp only
    rw [hAtrans]
    exact hen
  refine ⟨?_, ?_, ?_⟩
  · rw [hB]
    rw [setLanguageTail_elements_of_hit _ "en" enT hhit2]
    show ((setLanguage st oracle now "ar").doc.elements).map
        (engineContentStep enT) = st.doc.elements
    rw [hAelem, hdoc]
    rw [List.map_map, List.map_map]
    have hfun : ((engineContentStep enT ∘ engineContentStep arT) ∘
        engineContentStep enT) = engineContentStep enT :=
      funext (fun x => engineContentStep_roundtrip enT arT H x)
    rw [hfun]
  · rw [hB]
    rw [setLanguageTail_docDir_of_hit _ "en" enT hhit2]
    rfl
  · rw [hB, setLanguageTail_currentLanguage]

/-- Engine state in the English state of the C5 scenario: both trees
loaded (the same structural tree suffices for both codes), the document
holding the English application of one marker element. -/
def engineStateEn : EngineState :=
  { currentLanguage := some "en", previousLanguage := none,
    translations := [("en", treeHello), ("ar", treeHello)], cache := [],
    fetchLog := [], savedPref := none,
    doc := { elements := [divElemK].map (engineContentStep treeHello),
             docLang := "en", docDir := "ltr", htmlClasses := [],
             bodyClasses := [] } }

/-- Witness for C5 at the concrete English state: the hypotheses hold (the
mirrored-tree hypothesis trivially, the two trees being equal) and the
round trip restores the document and direction. -/
theorem c5_language_round_trip_restores_witness :
    engineStateEn.currentLanguage = some "en"
    ∧ assocLookup engineStateEn.translations "en" = some treeHello
    ∧ assocLookup engineStateEn.translations "ar" = some treeHello
    ∧ (setLanguage (setLanguage engineStateEn (fun _ => none) 0 "ar")
        (fun _ => none) 0 "en").doc.elements = engineStateEn.doc.elements
    ∧ (setLanguage (setLanguage engineStateEn (fun _ => none) 0 "ar")
        (fun _ => none) 0 "en").doc.docDir = "ltr"
    ∧ (setLanguage (setLanguage engineStateEn (fun _ => none) 0 "ar")
        (fun _ => none) 0 "en").currentLanguage = some "en" := by
  have h := c5_language_round_trip_restores engineStateEn (fun _ => none) 0
    treeHello treeHello [divElemK] rfl rfl rfl rfl (fun k hk => hk)
  exact ⟨rfl, rfl, rfl, h.1, h.2.1, h.2.2⟩

/-! ### C8: initial language determination -/

theorem findCookieLang_supported :
    ∀ (l : List String) (c : String), findCookieLang l = some c →
      isSupported c = true := by
  intro l
  induction l with
  | nil =>
    intro c h
    simp [findCookieLang] at h
  | cons x rest ih =>
    intro c h
    unfold findCookieLang at h
    cases hs : splitChar '=' (jsTrim x) with
    | nil =>
      rw [hs] at h
      exact ih c h
    | cons n vs =>
      rw [hs] at h
      dsimp only at h
      cases hv : vs.head? with
      | none =>
        rw [hv] at h
        exact ih c h
      | some v =>
        rw [hv] at h
        dsimp only at h
        by_cases hc : n = cookieName ∧ isSupported v = true
        · rw [if_pos hc] at h
          have hvc : v = c := by injection h
          subst hvc
          exact hc.2
        · rw [if_neg hc] at h
          exact ih c h

theorem savedFromCookieOrURL_supported (cookieStr : String)
    (urlLang : Option String) (c : String)
    (h : savedFromCookieOrURL cookieStr urlLang = some c) :
    isSupported c = true := by
  unfold savedFromCookieOrURL at h
  cases hf : findCookieLang (splitChar ';' cookieStr) with
  | some v =>
    rw [hf] at h
    have hvc : v = c := by injection h
    subst hvc
    exact findCookieLang_supported _ v hf
  | none =>
    rw [hf] at h
    dsimp only at h
    cases urlLang with
    | none => exact absurd h (by simp)
    | some u =>
      dsimp only at h
      by_cases hu : u ≠ "" ∧ isSupported u = true
      · rw [if_pos hu] at h
        have huc : u = c := by injection h
        subst huc
        exact hu.2
      · rw [if_neg hu] at h
        exact absurd h (by simp)

@[simp] theorem loadFetch_currentLanguage (st : EngineState)
    (oracle : String → Option JSVal) (now : Nat) (code : String) :
    (loadFetch st oracle now code).1.currentLanguage = st.currentLanguage := by
  unfold loadFetch
  cases h : oracle code <;> simp

@[simp] theorem loadLanguageCore_currentLanguage (st : EngineState)
    (oracle : String → Option JSVal) (now : Nat) (code : String) :
    (loadLanguageCore st oracle now code).1.currentLanguage
      = st.currentLanguage := by
  unfold loadLanguageCore
  cases h : assocLookup st.cache code with
  | none => simp
  | some cd =>
    dsimp only
    split <;> simp

@[simp] theorem loadLanguage_currentLanguage (st : EngineState)
    (oracle : String → Option JSVal) (now : Nat) (code : String) :
    (loadLanguage st oracle now code).1.currentLanguage
      = st.currentLanguage := by
  unfold loadLanguage
  cases h : loadLanguageCore st oracle now code with
  | mk st1 r =>
    have hc : st1.currentLanguage = st.currentLanguage := by
      have h2 := loadLanguageCore_currentLanguage st oracle now code
      rw [h] at h2
      exact h2
    cases r with
    | some t => exact hc
    | none =>
      dsimp only
      by_cases hf : code = fallbackLanguage
      · rw [if_pos hf]
        exact hc
      · rw [if_neg hf]
        have h3 := loadLanguageCore_currentLanguage st1 oracle now
          fallbackLanguage
        rw [h3, hc]

@[simp] theorem initializeRTL_currentLanguage (st : EngineState) :
    (initializeRTL st).currentLanguage = st.currentLanguage := by
  unfold initializeRTL
  split <;> simp

/-- C8: the initial language code is determined by checking, in priority
order, the stored preference (localStorage, then the cookie loop), then
the URL query parameter, then the registry default; a candidate from any
source is consulted only if it names a registry code. Conjuncts: (1) every
produced candidate is a registry code; (2) a usable localStorage value
wins; (3) when localStorage yields nothing usable the result is the
cookie-then-URL chain; (4) within that chain a cookie hit wins over the
URL; (5) the URL parameter is used when the cookies yield nothing; (6) when
no source yields a code, `init` keeps the constructor default as the
current language. -/
theorem c8_initial_language_priority :
    (∀ (ls : Option String) (cookieStr : String) (urlLang : Option String)
        (c : String),
      getSavedLanguage false ls cookieStr urlLang = some c →
      isSupported c = true)
    ∧ (∀ (s cookieStr : String) (urlLang : Option String),
        s ≠ "" → isSupported s = true →
        getSavedLanguage false (some s) cookieStr urlLang = some s)
    ∧ (∀ (ls : Option String) (cookieStr : String) (urlLang : Option String),
        (∀ s, ls = some s → s = "" ∨ isSupported s = false) →
        getSavedLanguage false ls cookieStr urlLang
          = savedFromCookieOrURL cookieStr urlLang)
    ∧ (∀ (cookieStr c : String) (urlLang : Option String),
        findCookieLang (splitChar ';' cookieStr) = some c →
        savedFromCookieOrURL cookieStr urlLang = some c)
    ∧ (∀ (cookieStr u : String),
        findCookieLang (splitChar ';' cookieStr) = none → u ≠ "" →
        isSupported u = true →
        savedFromCookieOrURL cookieStr (some u) = some u)
    ∧ (∀ (st : EngineState) (oracle : String → Option JSVal) (now : Nat)
        (ls : Option String) (cookieStr : String) (urlLang : Option String),
        getSavedLanguage false ls cookieStr urlLang = none →
        (engineInit st oracle now false ls cookieStr
          urlLang).currentLanguage = st.currentLanguage) := by
  refine ⟨?_, ?_, ?_, ?_, ?_, ?_⟩
  · intro ls cookieStr urlLang c h
    unfold getSavedLanguage at h
    rw [if_neg (by simp)] at h
    cases ls with
    | none => exact savedFromCookieOrURL_supported cookieStr urlLang c h
    | some s =>
      dsimp only at h
      by_cases hs : s ≠ "" ∧ isSupported s = true
      · rw [if_pos hs] at h
        have hsc : s = c := by injection h
        subst hsc
        exact hs.2
      · rw [if_neg hs] at h
        exact savedFromCookieOrURL_supported cookieStr urlLang c h
  · intro s cookieStr urlLang h1 h2
    unfold getSavedLanguage
    rw [if_neg (by simp)]
    dsimp only
    rw [if_pos ⟨h1, h2⟩]
  · intro ls cookieStr urlLang hls
    unfold getSavedLanguage
    rw [if_neg (by simp)]
    cases ls with
    | none => rfl
    | some s =>
      dsimp only
      rcases hls s rfl with h | h
      · rw [if_neg (by simp [h])]
      · rw [if_neg (by simp [h])]
  · intro cookieStr c urlLang h
    unfold savedFromCookieOrURL
    rw [h]
  · intro cookieStr u h h1 h2
    unfold savedFromCookieOrURL
    rw [h]
    dsimp only
    rw [if_pos ⟨h1, h2⟩]
  · intro st oracle now ls cookieStr urlLang hnone
    unfold engineInit
    cases hL : loadLanguage st oracle now (optLang st.currentLanguage) with
    | mk st1 r =>
      have hcur1 : st1.currentLanguage = st.currentLanguage := by
        have h2 := loadLanguage_currentLanguage st oracle now
          (optLang st.currentLanguage)
        rw [hL] at h2
        exact h2
      cases r with
      | none => exact hcur1
      | some t =>
        dsimp only
        rw [hnone]
        dsimp only
        rw [initializeRTL_currentLanguage]
        exact hcur1

/-- Witness for C8 at concrete inputs: a supported localStorage value wins;
with an unsupported localStorage value the cookie decides; with nothing
stored, `init` keeps the default `'en'`. -/
theorem c8_initial_language_priority_witness :
    getSavedLanguage false (some "ar") "" none = some "ar"
    ∧ getSavedLanguage false (some "xx") "marln-lang=ar" none
        = savedFromCookieOrURL "marln-lang=ar" none
    ∧ savedFromCookieOrURL "marln-lang=ar" none = some "ar"
    ∧ getSavedLanguage false none "" none = none
    ∧ (engineInit freshEngine (fun _ => some treeHello) 0 false none "" none
        ).currentLanguage = some "en" := by
  refine ⟨?_, ?_, ?_, rfl, ?_⟩
  · exact c8_initial_language_priority.2.1 "ar" "" none (by decide) (by decide)
  · exact c8_initial_language_priority.2.2.1 (some "xx") "marln-lang=ar" none
      (fun s hs => by
        have hxs : "xx" = s := by injection hs
        subst hxs
        exact Or.inr (by decide))
  · exact c8_initial_language_priority.2.2.2.1 "marln-lang=ar" "ar" none rfl
  · have h := c8_initial_language_priority.2.2.2.2.2 freshEngine
      (fun _ => some treeHello) 0 none "" none rfl
    rw [h]
    rfl

end NewLanding
